import Mathlib

/-!
Verification of the seasonsbot moderation ledger (database.py,
license_manager.py, violations.py, bot.py) against its specification.

Shallow embedding conventions:
* Python `dict`s (insertion-ordered) are association lists; `dlookup`,
  `dinsert`, `dmodify`, `derase` model key lookup, `d[k] = v` assignment,
  in-place field update of `d[k]`, and `del d[k]`.
* `datetime` values are integers (seconds); `datetime.now()` becomes an
  explicit `now` argument threaded to each operation.  ISO-8601 timestamp
  strings are order-isomorphic to these integers.
* Python `str(user_id)` keys are injective images of the integers, so user
  (and ban message) keys are kept as integers; warning ids are genuine
  strings because `_get_next_warning_id` inspects their characters.
* Each `async` method performs `load_data` / `save_data` around a pure
  state transformation; the embedding passes the state explicitly and
  models the load path's error recovery separately.
-/

/-! ## Timestamps -/

abbrev Time := Int

/-- One day in seconds (`timedelta(days=1)`). -/
def day : Int := 86400

/-- One week in seconds (`timedelta(weeks=1)`). -/
def week : Int := 7 * day

theorem day_pos : 0 < day := by norm_num [day]

theorem week_pos : 0 < week := by norm_num [week, day]

/-! ## Python dict model (insertion-ordered association lists) -/

/-- `m.get(k)` / `m[k]` lookup on a Python dict. -/
def dlookup {κ α : Type} [DecidableEq κ] (m : List (κ × α)) (k : κ) : Option α :=
  (m.find? (fun p => decide (p.1 = k))).map Prod.snd

/-- `k in m` on a Python dict. -/
def dcontains {κ α : Type} [DecidableEq κ] (m : List (κ × α)) (k : κ) : Bool :=
  (dlookup m k).isSome

/-- `m[k] = v`: replace in place when the key exists, else append. -/
def dinsert {κ α : Type} [DecidableEq κ] (m : List (κ × α)) (k : κ) (v : α) :
    List (κ × α) :=
  if dcontains m k then m.map (fun p => if p.1 = k then (k, v) else p)
  else m ++ [(k, v)]

/-- In-place mutation of the value stored at `k` (a no-op when `k` is absent). -/
def dmodify {κ α : Type} [DecidableEq κ] (m : List (κ × α)) (k : κ) (f : α → α) :
    List (κ × α) :=
  m.map (fun p => if p.1 = k then (p.1, f p.2) else p)

/-- `del m[k]` (total: a no-op when `k` is absent; all call sites guard). -/
def derase {κ α : Type} [DecidableEq κ] (m : List (κ × α)) (k : κ) :
    List (κ × α) :=
  m.filter (fun p => decide (p.1 ≠ k))

section DictLemmas

variable {κ α : Type} [DecidableEq κ]

@[simp] theorem dlookup_nil (k : κ) : dlookup ([] : List (κ × α)) k = none := rfl

theorem dlookup_cons (a : κ × α) (m : List (κ × α)) (k : κ) :
    dlookup (a :: m) k = if a.1 = k then some a.2 else dlookup m k := by
  by_cases h : a.1 = k <;> simp [dlookup, List.find?, h]

theorem dlookup_append_right (m : List (κ × α)) (k : κ) (v : α)
    (h : dlookup m k = none) : dlookup (m ++ [(k, v)]) k = some v := by
  induction m with
  | nil => simp [dlookup_cons]
  | cons a m ih =>
    rw [List.cons_append, dlookup_cons] at *
    by_cases ha : a.1 = k
    · simp [ha] at h
    · simpa [ha] using ih (by simpa [ha] using h)

theorem dlookup_append_ne (m : List (κ × α)) (k k' : κ) (v : α)
    (h : k' ≠ k) : dlookup (m ++ [(k, v)]) k' = dlookup m k' := by
  induction m with
  | nil => simp [dlookup_cons, Ne.symm h, dlookup]
  | cons a m ih =>
    rw [List.cons_append, dlookup_cons, dlookup_cons, ih]

theorem dlookup_dinsert_self (m : List (κ × α)) (k : κ) (v : α) :
    dlookup (dinsert m k v) k = some v := by
  unfold dinsert
  by_cases hc : dcontains m k
  · simp only [hc, if_true]
    unfold dcontains dlookup at hc
    induction m with
    | nil => simp at hc
    | cons a m ih =>
      by_cases ha : a.1 = k
      · simp [dlookup_cons, ha]
      · rw [List.map_cons, if_neg ha, dlookup_cons, if_neg ha]
        apply ih
        simpa [List.find?, ha] using hc
  · simp only [hc, if_false]
    apply dlookup_append_right
    unfold dcontains at hc
    simpa using hc

theorem dlookup_map_replace_ne (m : List (κ × α)) (k k' : κ) (v : α) (h : k' ≠ k) :
    dlookup (m.map (fun p => if p.1 = k then (k, v) else p)) k' = dlookup m k' := by
  induction m with
  | nil => simp
  | cons a m ih =>
    rw [List.map_cons]
    by_cases ha : a.1 = k
    · rw [if_pos ha, dlookup_cons, dlookup_cons, if_neg (Ne.symm h), if_neg]
      · exact ih
      · rw [ha]; exact Ne.symm h
    · rw [if_neg ha, dlookup_cons, dlookup_cons, ih]

theorem dlookup_dinsert_ne (m : List (κ × α)) (k k' : κ) (v : α) (h : k' ≠ k) :
    dlookup (dinsert m k v) k' = dlookup m k' := by
  unfold dinsert
  by_cases hc : dcontains m k
  · simp only [hc, if_true]
    exact dlookup_map_replace_ne m k k' v h
  · simp only [hc, if_false]
    exact dlookup_append_ne m k k' v h

theorem dlookup_dmodify_self (m : List (κ × α)) (k : κ) (f : α → α) :
    dlookup (dmodify m k f) k = (dlookup m k).map f := by
  induction m with
  | nil => simp [dmodify]
  | cons a m ih =>
    unfold dmodify at *
    rw [List.map_cons]
    by_cases ha : a.1 = k
    · rw [if_pos ha, dlookup_cons, dlookup_cons, if_pos ha, if_pos ha]
      simp
    · rw [if_neg ha, dlookup_cons, dlookup_cons, if_neg ha, if_neg ha, ih]

theorem dlookup_dmodify_ne (m : List (κ × α)) (k k' : κ) (f : α → α) (h : k' ≠ k) :
    dlookup (dmodify m k f) k' = dlookup m k' := by
  induction m with
  | nil => simp [dmodify]
  | cons a m ih =>
    unfold dmodify at *
    rw [List.map_cons]
    by_cases ha : a.1 = k
    · rw [if_pos ha, dlookup_cons, dlookup_cons, if_neg (ha ▸ Ne.symm h),
        if_neg (ha ▸ Ne.symm h), ih]
    · rw [if_neg ha, dlookup_cons, dlookup_cons, ih]

theorem dlookup_derase_self (m : List (κ × α)) (k : κ) :
    dlookup (derase m k) k = none := by
  induction m with
  | nil => simp [derase]
  | cons a m ih =>
    unfold derase at *
    rw [List.filter_cons]
    by_cases ha : a.1 = k
    · simpa [ha] using ih
    · rw [if_pos (by simpa using ha), dlookup_cons, if_neg ha]
      exact ih

theorem dlookup_derase_ne (m : List (κ × α)) (k k' : κ) (h : k' ≠ k) :
    dlookup (derase m k) k' = dlookup m k' := by
  induction m with
  | nil => simp [derase]
  | cons a m ih =>
    unfold derase at *
    rw [List.filter_cons]
    by_cases ha : a.1 = k
    · rw [if_neg (by simpa using ha), ih, dlookup_cons, if_neg]
      rw [ha]; exact Ne.symm h
    · rw [if_pos (by simpa using ha), dlookup_cons, dlookup_cons, ih]

theorem isSome_dlookup_dinsert (m : List (κ × α)) (k k' : κ) (v : α)
    (h : (dlookup m k').isSome) : (dlookup (dinsert m k v) k').isSome := by
  by_cases hk : k' = k
  · subst hk; rw [dlookup_dinsert_self]; rfl
  · rwa [dlookup_dinsert_ne _ _ _ _ hk]

theorem isSome_dlookup_dmodify (m : List (κ × α)) (k k' : κ) (f : α → α)
    (h : (dlookup m k').isSome) : (dlookup (dmodify m k f) k').isSome := by
  by_cases hk : k' = k
  · subst hk; rw [dlookup_dmodify_self]; simpa using h
  · rwa [dlookup_dmodify_ne _ _ _ _ hk]

theorem mem_of_dlookup_eq_some {m : List (κ × α)} {k : κ} {v : α}
    (h : dlookup m k = some v) : (k, v) ∈ m := by
  induction m with
  | nil => simp at h
  | cons a m ih =>
    rw [dlookup_cons] at h
    by_cases ha : a.1 = k
    · rw [if_pos ha] at h
      obtain ⟨a1, a2⟩ := a
      cases ha
      cases h
      exact List.mem_cons_self _ _
    · rw [if_neg ha] at h
      exact List.mem_cons_of_mem _ (ih h)

theorem dlookup_eq_some_of_mem_nodup {m : List (κ × α)} {k : κ} {v : α}
    (hnd : (m.map Prod.fst).Nodup) (hm : (k, v) ∈ m) : dlookup m k = some v := by
  induction m with
  | nil => simp at hm
  | cons a m ih =>
    rw [List.map_cons, List.nodup_cons] at hnd
    rcases List.mem_cons.mp hm with h | h
    · subst h; simp [dlookup_cons]
    · rw [dlookup_cons, if_neg, ih hnd.2 h]
      intro hk
      exact hnd.1 (hk ▸ List.mem_map_of_mem Prod.fst h)

end DictLemmas

/-! ## Decimal strings

`_get_next_warning_id` manipulates warning ids as decimal strings
(`warning_id.isdigit()`, `int(warning_id)`, `str(max_id + 1)`).  We model
Python's `str` on non-negative integers and the `isdigit`-guarded `int`
parse directly on character lists. -/

/-- The decimal digit character for `d` (`d ≥ 9` clamps to `9`; callers only
pass `d < 10`). -/
def digitChar (d : Nat) : Char :=
  match d with
  | 0 => '0' | 1 => '1' | 2 => '2' | 3 => '3' | 4 => '4'
  | 5 => '5' | 6 => '6' | 7 => '7' | 8 => '8' | _ => '9'

/-- Decimal digit list, fuel-bounded so that it reduces structurally
(`fuel > n` always suffices, since `n / 10 < n`). -/
def natToDigitsAux (fuel : Nat) (n : Nat) : List Char :=
  match fuel with
  | 0 => []
  | fuel + 1 =>
    if n < 10 then [digitChar n]
    else natToDigitsAux fuel (n / 10) ++ [digitChar (n % 10)]

/-- Decimal digit list of a non-negative integer, most significant first. -/
def natToDigits (n : Nat) : List Char := natToDigitsAux (n + 1) n

/-- Python `str(n)` for a non-negative integer. -/
def natToString (n : Nat) : String := String.mk (natToDigits n)

/-- Python `s.isdigit()` (ASCII digits; nonempty). -/
def isDigits (l : List Char) : Bool := !l.isEmpty && l.all Char.isDigit

/-- Decimal value of a digit list (how Python `int` reads a digit string). -/
def parseDigits (l : List Char) : Nat := l.foldl (fun a c => 10 * a + (c.toNat - 48)) 0

/-- The `isdigit`-guarded `int(s)` used by `_get_next_warning_id`: `some`
exactly on pure decimal digit strings. -/
def strToNatOpt (s : String) : Option Nat :=
  if isDigits s.data then some (parseDigits s.data) else none

theorem digitChar_isDigit (d : Nat) : (digitChar d).isDigit = true := by
  unfold digitChar
  split <;> decide

theorem toNat_digitChar (d : Nat) (h : d < 10) : (digitChar d).toNat = 48 + d := by
  interval_cases d <;> decide

theorem parseDigits_append (l : List Char) (c : Char) :
    parseDigits (l ++ [c]) = 10 * parseDigits l + (c.toNat - 48) := by
  unfold parseDigits
  rw [List.foldl_append]
  rfl

theorem parseDigits_natToDigitsAux (fuel : Nat) :
    ∀ n, n < fuel → parseDigits (natToDigitsAux fuel n) = n := by
  induction fuel with
  | zero => intro n h; omega
  | succ fuel ih =>
    intro n h
    unfold natToDigitsAux
    by_cases h10 : n < 10
    · simp only [h10, if_true]
      simp [parseDigits, toNat_digitChar n h10]
    · simp only [h10, if_false]
      have hdiv : n / 10 < fuel := by
        have := Nat.div_lt_self (show 0 < n by omega) (show 1 < 10 by norm_num)
        omega
      rw [parseDigits_append, ih (n / 10) hdiv,
        toNat_digitChar (n % 10) (Nat.mod_lt n (by norm_num))]
      omega

theorem parseDigits_natToDigits (n : Nat) : parseDigits (natToDigits n) = n :=
  parseDigits_natToDigitsAux (n + 1) n (by omega)

theorem natToDigits_ne_nil (n : Nat) : natToDigits n ≠ [] := by
  unfold natToDigits natToDigitsAux
  by_cases h : n < 10 <;> simp [h]

theorem natToDigitsAux_all_digit (fuel : Nat) :
    ∀ n, (natToDigitsAux fuel n).all Char.isDigit = true := by
  induction fuel with
  | zero => intro n; rfl
  | succ fuel ih =>
    intro n
    unfold natToDigitsAux
    by_cases h : n < 10
    · simp [h, digitChar_isDigit]
    · simp only [h, if_false, List.all_append]
      rw [ih (n / 10)]
      simp [digitChar_isDigit]

theorem natToDigits_all_digit (n : Nat) : (natToDigits n).all Char.isDigit = true :=
  natToDigitsAux_all_digit (n + 1) n

theorem isDigits_natToDigits (n : Nat) : isDigits (natToDigits n) = true := by
  unfold isDigits
  rw [natToDigits_all_digit]
  simp [natToDigits_ne_nil n]

theorem strToNatOpt_natToString (n : Nat) : strToNatOpt (natToString n) = some n := by
  unfold strToNatOpt natToString
  simp [isDigits_natToDigits, parseDigits_natToDigits]

theorem natToString_ne_of_parse_ne (s : String) (n : Nat)
    (h : strToNatOpt s ≠ some n) : s ≠ natToString n := by
  intro hs
  exact h (hs ▸ strToNatOpt_natToString n)

/-! ## violations.py -/

/-- One entry of the `VIOLATIONS` catalog. -/
structure ViolationDef where
  base_points : Int
  repeat_penalty : Int
  description : String
  grade : Nat
deriving Repr, DecidableEq

/-- The `VIOLATIONS` catalog of violations.py. -/
def VIOLATIONS : List (String × ViolationDef) := [
  ("RDM / VDM", ⟨10, 5, "Killing or running over others without proper RP.", 1⟩),
  ("Mass RDM / Mass VDM", ⟨25, 10, "Killing 3+ people without RP.", 2⟩),
  ("NLR", ⟨10, 5, "Returning to the scene after death.", 1⟩),
  ("FailRP (NVL, GP>RP, LQRP, etc.)", ⟨10, 5, "Breaking character or ignoring realistic RP.", 1⟩),
  ("Cop Baiting", ⟨10, 5, "Provoking police for no RP reason.", 1⟩),
  ("NITRP", ⟨30, 10, "Trolling or refusing to engage in RP.", 3⟩),
  ("Metagaming", ⟨15, 5, "Using OOC info for IC advantage.", 1⟩),
  ("Power Gaming", ⟨20, 10, "Forcing actions or outcomes unrealistically.", 3⟩),
  ("Lack of Initiation", ⟨10, 5, "Engaging in violence without warning.", 1⟩),
  ("Greenzone Violations", ⟨10, 5, "Committing crimes in safezones.", 1⟩),
  ("Mic / Chat Spam", ⟨5, 2, "Spamming audio or text channels.", 1⟩),
  ("LTAP (Avoiding Punishment)", ⟨15, 5, "Leaving the game to avoid punishment.", 2⟩),
  ("LTARP (Avoiding RP)", ⟨20, 10, "Leaving to avoid ongoing RP.", 3⟩),
  ("Lying to Staff", ⟨20, 10, "Knowingly misleading staff.", 3⟩),
  ("Racism / Hate Speech", ⟨50, 25, "Using slurs or hate speech.", 3⟩),
  ("Erotic Roleplay (ERP)", ⟨50, 25, "Sexual RP that violates server rules.", 3⟩),
  ("DDoS / Dox / Exploiting / Hacking", ⟨100, 0, "DDoS attacks, doxxing, exploiting, or hacking.", 3⟩)]

/-- `PUNISHMENT_THRESHOLDS`: `(min, max, action)`; `none` is `float('inf')`. -/
def PUNISHMENT_THRESHOLDS : List (Int × Option Int × String) := [
  (0, some 14, "Written Warning"),
  (15, some 24, "3-Hour Ban"),
  (25, some 34, "12-Hour Ban"),
  (35, some 44, "1-Day Ban"),
  (45, some 59, "3-Day Ban"),
  (60, some 74, "1-Week Ban"),
  (75, some 89, "2-Week Ban"),
  (90, some 99, "1-Month Ban"),
  (100, none, "Permanent Ban")]

/-- `min_points <= points <= max_points` for one threshold row. -/
def inThreshold (points : Int) (t : Int × Option Int × String) : Bool :=
  decide (t.1 ≤ points) && (match t.2.1 with
    | some mx => decide (points ≤ mx)
    | none => true)

/-- `get_punishment_action` of violations.py: first matching row, with the
(unreachable) fallback value. -/
def get_punishment_action (points : Int) : String :=
  ((PUNISHMENT_THRESHOLDS.find? (inThreshold points)).map (fun t => t.2.2)).getD
    "Written Warning"

/-- `calculate_points` of violations.py. -/
def calculate_points (violation_type : String) (previous_violations_count : Nat) : Int :=
  match dlookup VIOLATIONS violation_type with
  | none => 0
  | some v => v.base_points + v.repeat_penalty * (previous_violations_count : Int)

/-! ## database.py: data model -/

/-- A warning record as built by `add_warning`.  The `removed*` fields are
absent from fresh records in Python; `warning.get("removed", False)` is
modeled by the `false` / `none` defaults. -/
structure Warning where
  id : String
  user_id : Int
  moderator_id : Int
  violation_type : String
  points : Int
  clips : List String
  reason : String
  timestamp : Time
  expires_at : Time
  removed : Bool := false
  removed_by : Option Int := none
  removed_at : Option Time := none
  removal_reason : Option String := none
deriving Repr, DecidableEq

/-- A `data["users"][uid]` record. -/
structure UserRec where
  total_points : Int
  warnings : List String
  bans : List String
deriving Repr, DecidableEq

/-- A `data["bans"][message_id]` record. -/
structure BanReq where
  user_id : Int
  total_points : Int
  action : String
  message_id : Int
  timestamp : Time
  status : String
  completed_by : Option Int := none
  completed_at : Option Time := none
deriving Repr, DecidableEq

/-- The whole warnings-database document. -/
structure DbData where
  users : List (Int × UserRec)
  warnings : List (String × Warning)
  bans : List (Int × BanReq)
deriving Repr, DecidableEq

/-- The initial / recovery document `{"users": {}, "warnings": {}, "bans": {}}`. -/
def emptyDb : DbData := ⟨[], [], []⟩

namespace DatabaseManager

/-- The `grade_map` hard-coded inside `_calculate_expiry` (note: it has 16
entries; the 17-entry `VIOLATIONS` catalog is not consulted). -/
def grade_map : List (String × Nat) := [
  ("RDM / VDM", 1),
  ("Mass RDM / Mass VDM", 2),
  ("NLR", 1),
  ("FailRP (NVL, GP>RP, LQRP, etc.)", 1),
  ("Cop Baiting", 1),
  ("NITRP", 3),
  ("Metagaming", 1),
  ("Power Gaming", 3),
  ("Lack of Initiation", 1),
  ("Greenzone Violations", 1),
  ("Mic / Chat Spam", 1),
  ("LTAP (Avoiding Punishment)", 2),
  ("LTARP (Avoiding RP)", 3),
  ("Lying to Staff", 3),
  ("Racism / Hate Speech", 3),
  ("Erotic Roleplay (ERP)", 3)]

/-- `_calculate_expiry`: `grade_map.get(violation_type, 1)` selects the
expiry window added to `datetime.now()`. -/
def calculate_expiry (violation_type : String) (now : Time) : Time :=
  let grade := (dlookup grade_map violation_type).getD 1
  if grade = 1 then now + 2 * week
  else if grade = 2 then now + 4 * week
  else now + 8 * week

/-- The fold body of `_get_next_warning_id`: non-digit ids are skipped. -/
def maxIdStep (m : Nat) (p : String × Warning) : Nat :=
  match strToNatOpt p.1 with
  | some n => max m n
  | none => m

/-- Highest purely-numeric warning id (0 when there is none). -/
def maxWarningId (ws : List (String × Warning)) : Nat := ws.foldl maxIdStep 0

/-- `_get_next_warning_id`: `str(max_id + 1)`. -/
def get_next_warning_id (d : DbData) : String := natToString (maxWarningId d.warnings + 1)

/-- `add_warning` (returns the created record and the saved document). -/
def add_warning (d : DbData) (user_id moderator_id : Int) (violation_type : String)
    (points : Int) (clips : List String) (reason : String) (now : Time) :
    Warning × DbData :=
  let warning_id := get_next_warning_id d
  let users0 :=
    if dcontains d.users user_id then d.users
    else dinsert d.users user_id ⟨0, [], []⟩
  let w : Warning :=
    { id := warning_id, user_id := user_id, moderator_id := moderator_id,
      violation_type := violation_type, points := points, clips := clips,
      reason := reason, timestamp := now,
      expires_at := calculate_expiry violation_type now }
  let users1 := dmodify users0 user_id (fun rec =>
    { rec with warnings := rec.warnings ++ [warning_id],
               total_points := rec.total_points + points })
  (w, { users := users1, warnings := dinsert d.warnings warning_id w, bans := d.bans })

/-- `get_user_points`: fold of the active-points filter over the user's
warning-id list. -/
def get_user_points (d : DbData) (user_id : Int) (now : Time) : Int :=
  match dlookup d.users user_id with
  | none => 0
  | some rec =>
    rec.warnings.foldl (fun total wid =>
      match dlookup d.warnings wid with
      | some w => if now < w.expires_at ∧ w.removed = false then total + w.points else total
      | none => total) 0

/-- Timestamp-descending comparison used by `sorted(..., reverse=True)`. -/
def tsGE (a b : Warning) : Prop := b.timestamp ≤ a.timestamp

instance : DecidableRel tsGE := fun _ _ => inferInstanceAs (Decidable (_ ≤ _))

/-- `get_user_warnings`: active warnings, newest first. -/
def get_user_warnings (d : DbData) (user_id : Int) (now : Time) : List Warning :=
  match dlookup d.users user_id with
  | none => []
  | some rec =>
    let ws := rec.warnings.filterMap (fun wid =>
      match dlookup d.warnings wid with
      | some w => if now < w.expires_at ∧ w.removed = false then some w else none
      | none => none)
    ws.insertionSort tsGE

/-- The removal stamp written by `remove_warning` / `remove_user_warnings`. -/
def removalStamp (w : Warning) (moderator_id : Int) (reason : String) (now : Time) :
    Warning :=
  { w with removed := true, removed_by := some moderator_id,
           removed_at := some now, removal_reason := some reason,
           expires_at := now - day }

/-- `remove_warning`. -/
def remove_warning (d : DbData) (warning_id : String) (moderator_id : Int)
    (reason : String) (now : Time) : Bool × DbData :=
  if dcontains d.warnings warning_id then
    let ws := dmodify d.warnings warning_id (fun w => removalStamp w moderator_id reason now)
    (true, { d with warnings := ws })
  else (false, d)

/-- Loop body of `remove_user_warnings`, threading the count and the
`data["warnings"]` table being mutated in place. -/
def removeUserStep (moderator_id : Int) (reason : String) (now : Time)
    (acc : Nat × List (String × Warning)) (wid : String) :
    Nat × List (String × Warning) :=
  match dlookup acc.2 wid with
  | some w =>
    if now < w.expires_at ∧ w.removed = false then
      (acc.1 + 1, dmodify acc.2 wid (fun w => removalStamp w moderator_id reason now))
    else acc
  | none => acc

/-- `remove_user_warnings`. -/
def remove_user_warnings (d : DbData) (user_id moderator_id : Int) (reason : String)
    (now : Time) : Nat × DbData :=
  match dlookup d.users user_id with
  | none => (0, d)
  | some rec =>
    let r := rec.warnings.foldl (removeUserStep moderator_id reason now) (0, d.warnings)
    (r.1, { d with warnings := r.2 })

/-- `find_warnings_by_user`: unfiltered, newest first, truncated. -/
def find_warnings_by_user (d : DbData) (user_id : Int) (limit : Nat) : List Warning :=
  match dlookup d.users user_id with
  | none => []
  | some rec =>
    let ws := rec.warnings.filterMap (fun wid => dlookup d.warnings wid)
    (ws.insertionSort tsGE).take limit

/-- `add_ban_request`. -/
def add_ban_request (d : DbData) (user_id total_points : Int) (action : String)
    (message_id : Int) (now : Time) : BanReq × DbData :=
  let b : BanReq :=
    { user_id := user_id, total_points := total_points, action := action,
      message_id := message_id, timestamp := now, status := "pending" }
  (b, { d with bans := dinsert d.bans message_id b })

/-- `complete_ban_request`. -/
def complete_ban_request (d : DbData) (message_id moderator_id : Int) (now : Time) :
    Option BanReq × DbData :=
  match dlookup d.bans message_id with
  | some _ =>
    let bans1 := dmodify d.bans message_id (fun b =>
      { b with status := "completed", completed_by := some moderator_id,
               completed_at := some now })
    ((dlookup bans1 message_id), { d with bans := bans1 })
  | none => (none, d)

end DatabaseManager

/-! ## bot.py: the issue-warning dataflow that feeds `calculate_points` -/

namespace Bot

/-- bot.py (violation-select callback): `previous_violations` is counted over
`get_user_warnings`, i.e. over the ACTIVE warnings only. -/
def previous_violations (d : DbData) (user_id : Int) (violation_type : String)
    (now : Time) : Nat :=
  ((DatabaseManager.get_user_warnings d user_id now).filter
    (fun w => decide (w.violation_type = violation_type))).length

/-- The points bot.py passes to `add_warning` for one selected violation. -/
def issue_points (d : DbData) (user_id : Int) (violation_type : String)
    (now : Time) : Int :=
  calculate_points violation_type (previous_violations d user_id violation_type now)

end Bot

/-- The prior-warning count as the specification words it: over ALL of the
user's currently stored warnings of that violation type, with no
active/removed/expired filtering.  (Stated from the spec sentence, to be
compared with the code's `Bot.previous_violations`.) -/
def previous_violations_claimed (d : DbData) (user_id : Int)
    (violation_type : String) : Nat :=
  match dlookup d.users user_id with
  | none => 0
  | some rec =>
    ((rec.warnings.filterMap (fun wid => dlookup d.warnings wid)).filter
      (fun w => decide (w.violation_type = violation_type))).length

/-! ## license_manager.py -/

/-- The record stored in both license indexes. -/
structure LicenseInfo where
  license : String
  user_id : Int
  added_by : Int
  added_at : Time
  note : String
deriving Repr, DecidableEq

/-- One `license_history` entry (`note` on add, `reason` on remove). -/
structure LicHistoryEntry where
  action : String
  user_id : Int
  license : String
  moderator_id : Int
  timestamp : Time
  note : Option String := none
  reason : Option String := none
deriving Repr, DecidableEq

/-- The whole licenses.json document. -/
structure LicData where
  user_licenses : List (Int × LicenseInfo)
  license_users : List (String × LicenseInfo)
  license_history : List LicHistoryEntry
deriving Repr, DecidableEq

/-- The initial / recovery licenses document. -/
def emptyLic : LicData := ⟨[], [], []⟩

namespace LicenseManager

/-- `add_license`. -/
def add_license (s : LicData) (user_id : Int) (license_key : String)
    (moderator_id : Int) (note : String) (now : Time) : Bool × LicData :=
  let conflict :=
    match dlookup s.license_users license_key with
    | some existing => decide (existing.user_id ≠ user_id)
    | none => false
  if conflict then (false, s)
  else
    let license_users0 :=
      match dlookup s.user_licenses user_id with
      | some old_info =>
        if dcontains s.license_users old_info.license then
          derase s.license_users old_info.license
        else s.license_users
      | none => s.license_users
    let info : LicenseInfo := ⟨license_key, user_id, moderator_id, now, note⟩
    let hist : LicHistoryEntry :=
      { action := "add", user_id := user_id, license := license_key,
        moderator_id := moderator_id, timestamp := now, note := some note }
    (true, { user_licenses := dinsert s.user_licenses user_id info,
             license_users := dinsert license_users0 license_key info,
             license_history := s.license_history ++ [hist] })

/-- `remove_license`. -/
def remove_license (s : LicData) (user_id moderator_id : Int) (reason : String)
    (now : Time) : Bool × LicData :=
  match dlookup s.user_licenses user_id with
  | none => (false, s)
  | some info =>
    let license_key := info.license
    let lu :=
      if dcontains s.license_users license_key then derase s.license_users license_key
      else s.license_users
    let hist : LicHistoryEntry :=
      { action := "remove", user_id := user_id, license := license_key,
        moderator_id := moderator_id, timestamp := now, reason := some reason }
    (true, { user_licenses := derase s.user_licenses user_id,
             license_users := lu,
             license_history := s.license_history ++ [hist] })

/-- `get_user_license`. -/
def get_user_license (s : LicData) (user_id : Int) : Option LicenseInfo :=
  dlookup s.user_licenses user_id

/-- `get_license_user`. -/
def get_license_user (s : LicData) (license_key : String) : Option LicenseInfo :=
  dlookup s.license_users license_key

end LicenseManager

/-! ## The load paths (error recovery)

Each read operation starts with `load_data`, which wraps the file read and
JSON parse in `try ... except` and substitutes the empty document on any
failure.  The read+parse outcome is modeled as an `Except`: `Except.error`
is a missing / unreadable / corrupt file. -/

/-- A successfully parsed warnings.json: each top-level key may be absent
(`load_data` re-adds missing keys). -/
structure ParsedDb where
  users : Option (List (Int × UserRec))
  warnings : Option (List (String × Warning))
  bans : Option (List (Int × BanReq))

/-- `DatabaseManager.load_data` over the read+parse outcome. -/
def DatabaseManager.load_data (r : Except String ParsedDb) : DbData :=
  match r with
  | .ok p => { users := p.users.getD [], warnings := p.warnings.getD [],
               bans := p.bans.getD [] }
  | .error _ => emptyDb

/-- `LicenseManager.load_data` over the read+parse outcome. -/
def LicenseManager.load_data (r : Except String LicData) : LicData :=
  match r with
  | .ok s => s
  | .error _ => emptyLic

/-! ## Reachable states -/

/-- One persisted mutation of warnings.json. -/
inductive DbStep : DbData → DbData → Prop
  | add (d : DbData) (user_id moderator_id : Int) (violation_type : String)
      (points : Int) (clips : List String) (reason : String) (now : Time) :
      DbStep d (DatabaseManager.add_warning d user_id moderator_id violation_type
        points clips reason now).2
  | remove (d : DbData) (warning_id : String) (moderator_id : Int)
      (reason : String) (now : Time) :
      DbStep d (DatabaseManager.remove_warning d warning_id moderator_id reason now).2
  | removeUser (d : DbData) (user_id moderator_id : Int) (reason : String)
      (now : Time) :
      DbStep d (DatabaseManager.remove_user_warnings d user_id moderator_id
        reason now).2
  | addBan (d : DbData) (user_id total_points : Int) (action : String)
      (message_id : Int) (now : Time) :
      DbStep d (DatabaseManager.add_ban_request d user_id total_points action
        message_id now).2
  | completeBan (d : DbData) (message_id moderator_id : Int) (now : Time) :
      DbStep d (DatabaseManager.complete_ban_request d message_id moderator_id now).2

/-- Any number of persisted mutations. -/
def DbFrom : DbData → DbData → Prop := Relation.ReflTransGen DbStep

/-- States reachable from the initial document. -/
def DbReachable (d : DbData) : Prop := DbFrom emptyDb d

/-- One persisted mutation of licenses.json. -/
inductive LicStep : LicData → LicData → Prop
  | add (s : LicData) (user_id : Int) (license_key : String) (moderator_id : Int)
      (note : String) (now : Time) :
      LicStep s (LicenseManager.add_license s user_id license_key moderator_id
        note now).2
  | remove (s : LicData) (user_id moderator_id : Int) (reason : String) (now : Time) :
      LicStep s (LicenseManager.remove_license s user_id moderator_id reason now).2

/-- License states reachable from the initial document. -/
def LicReachable (s : LicData) : Prop := Relation.ReflTransGen LicStep emptyLic s

/-! ## Claim theorems -/

/-- C9: every ledger read operation recovers from a store-read failure
(missing or corrupt file) by substituting the empty document shape; since
both `load_data` functions are total into the document types, callers always
receive a value and never a propagated I/O error. -/
theorem load_data_recovers_empty_store :
    (∀ e : String, DatabaseManager.load_data (Except.error e) = emptyDb) ∧
    (∀ e : String, LicenseManager.load_data (Except.error e) = emptyLic) :=
  ⟨fun _ => rfl, fun _ => rfl⟩

/-- C7: `remove_warning` returns `false` iff the warning id is unknown, and
then leaves the store unchanged; on success (including on an
already-removed warning, which it simply re-stamps) it sets `removed=true`,
records the removing moderator, removal time and reason, backdates
`expires_at` to `now - day`, and touches nothing else. -/
theorem remove_warning_spec (d : DbData) (warning_id : String) (moderator_id : Int)
    (reason : String) (now : Time) :
    ((DatabaseManager.remove_warning d warning_id moderator_id reason now).1 = false ↔
      dlookup d.warnings warning_id = none)
    ∧ (dlookup d.warnings warning_id = none →
      (DatabaseManager.remove_warning d warning_id moderator_id reason now).2 = d)
    ∧ (∀ w, dlookup d.warnings warning_id = some w →
      (DatabaseManager.remove_warning d warning_id moderator_id reason now).1 = true
      ∧ dlookup (DatabaseManager.remove_warning d warning_id moderator_id reason
          now).2.warnings warning_id =
          some { w with removed := true, removed_by := some moderator_id,
                        removed_at := some now, removal_reason := some reason,
                        expires_at := now - day }
      ∧ (∀ k, k ≠ warning_id →
          dlookup (DatabaseManager.remove_warning d warning_id moderator_id reason
            now).2.warnings k = dlookup d.warnings k)
      ∧ (DatabaseManager.remove_warning d warning_id moderator_id reason now).2.users
          = d.users
      ∧ (DatabaseManager.remove_warning d warning_id moderator_id reason now).2.bans
          = d.bans) := by
  unfold DatabaseManager.remove_warning
  by_cases hc : dcontains d.warnings warning_id = true
  · obtain ⟨w, hw⟩ := Option.isSome_iff_exists.mp (by simpa [dcontains] using hc)
    simp only [hc, if_true]
    refine ⟨?_, ?_, ?_⟩
    · constructor
      · intro h; cases h
      · intro h; rw [h] at hw; cases hw
    · intro h; rw [h] at hw; cases hw
    · intro w' hw'
      refine ⟨trivial, ?_, ?_, by trivial, by trivial⟩
      · rw [dlookup_dmodify_self, hw']
        rfl
      · intro k hk
        exact dlookup_dmodify_ne _ _ _ _ hk
  · have hn : dlookup d.warnings warning_id = none :=
      Option.not_isSome_iff_eq_none.mp (by simpa [dcontains] using hc)
    simp only [hc, if_false]
    refine ⟨⟨fun _ => hn, fun _ => rfl⟩, fun _ => rfl, ?_⟩
    intro w hw
    rw [hn] at hw
    cases hw

/-- A concrete warning used by several witnesses. -/
def wSample : Warning :=
  { id := "1", user_id := 7, moderator_id := 9, violation_type := "NLR",
    points := 10, clips := ["clip"], reason := "r", timestamp := 0,
    expires_at := 2 * week }

/-- A concrete one-user, one-warning document used by several witnesses. -/
def dSample : DbData :=
  { users := [(7, { total_points := 10, warnings := ["1"], bans := [] })],
    warnings := [("1", wSample)], bans := [] }

/-- Witness for C7 at a concrete store: removing the known id "1" succeeds
and re-stamps it, and removing the unknown id "2" fails and changes nothing. -/
theorem remove_warning_spec_witness :
    ((DatabaseManager.remove_warning dSample "1" 9 "bad" 5).1 = true
      ∧ dlookup (DatabaseManager.remove_warning dSample "1" 9 "bad" 5).2.warnings "1" =
          some { wSample with removed := true, removed_by := some 9,
                              removed_at := some 5, removal_reason := some "bad",
                              expires_at := 5 - day })
    ∧ ((DatabaseManager.remove_warning dSample "2" 9 "bad" 5).1 = false
      ∧ (DatabaseManager.remove_warning dSample "2" 9 "bad" 5).2 = dSample) := by
  have h1 := (remove_warning_spec dSample "1" 9 "bad" 5).2.2 wSample (by rfl)
  have h2 := remove_warning_spec dSample "2" 9 "bad" 5
  exact ⟨⟨h1.1, h1.2.1⟩, ⟨h2.1.mpr (by rfl), h2.2.1 (by rfl)⟩⟩

/-- Severity rank of the nine punishment labels, in table order. -/
def actionRank (a : String) : Nat :=
  if a = "Written Warning" then 0
  else if a = "3-Hour Ban" then 1
  else if a = "12-Hour Ban" then 2
  else if a = "1-Day Ban" then 3
  else if a = "3-Day Ban" then 4
  else if a = "1-Week Ban" then 5
  else if a = "2-Week Ban" then 6
  else if a = "1-Month Ban" then 7
  else 8

/-- Closed form of the threshold scan on non-negative points. -/
theorem get_punishment_action_closed (p : Int) (hp : 0 ≤ p) :
    get_punishment_action p =
      if p ≤ 14 then "Written Warning"
      else if p ≤ 24 then "3-Hour Ban"
      else if p ≤ 34 then "12-Hour Ban"
      else if p ≤ 44 then "1-Day Ban"
      else if p ≤ 59 then "3-Day Ban"
      else if p ≤ 74 then "1-Week Ban"
      else if p ≤ 89 then "2-Week Ban"
      else if p ≤ 99 then "1-Month Ban"
      else "Permanent Ban" := by
  unfold get_punishment_action PUNISHMENT_THRESHOLDS
  by_cases h1 : p ≤ 14
  · rw [List.find?_cons_of_pos _ (by simp [inThreshold]; omega)]
    simp [h1]
  · rw [List.find?_cons_of_neg _ (by simp [inThreshold]; omega)]
    by_cases h2 : p ≤ 24
    · rw [List.find?_cons_of_pos _ (by simp [inThreshold]; omega)]
      simp [h1, h2]
    · rw [List.find?_cons_of_neg _ (by simp [inThreshold]; omega)]
      by_cases h3 : p ≤ 34
      · rw [List.find?_cons_of_pos _ (by simp [inThreshold]; omega)]
        simp [h1, h2, h3]
      · rw [List.find?_cons_of_neg _ (by simp [inThreshold]; omega)]
        by_cases h4 : p ≤ 44
        · rw [List.find?_cons_of_pos _ (by simp [inThreshold]; omega)]
          simp [h1, h2, h3, h4]
        · rw [List.find?_cons_of_neg _ (by simp [inThreshold]; omega)]
          by_cases h5 : p ≤ 59
          · rw [List.find?_cons_of_pos _ (by simp [inThreshold]; omega)]
            simp [h1, h2, h3, h4, h5]
          · rw [List.find?_cons_of_neg _ (by simp [inThreshold]; omega)]
            by_cases h6 : p ≤ 74
            · rw [List.find?_cons_of_pos _ (by simp [inThreshold]; omega)]
              simp [h1, h2, h3, h4, h5, h6]
            · rw [List.find?_cons_of_neg _ (by simp [inThreshold]; omega)]
              by_cases h7 : p ≤ 89
              · rw [List.find?_cons_of_pos _ (by simp [inThreshold]; omega)]
                simp [h1, h2, h3, h4, h5, h6, h7]
              · rw [List.find?_cons_of_neg _ (by simp [inThreshold]; omega)]
                by_cases h8 : p ≤ 99
                · rw [List.find?_cons_of_pos _ (by simp [inThreshold]; omega)]
                  simp [h1, h2, h3, h4, h5, h6, h7, h8]
                · rw [List.find?_cons_of_neg _ (by simp [inThreshold]; omega),
                    List.find?_cons_of_pos _ (by simp [inThreshold]; omega)]
                  simp [h1, h2, h3, h4, h5, h6, h7, h8]

/-- At most one threshold row contains a given non-negative `p`. -/
theorem inThreshold_unique (p : Int) (t t' : Int × Option Int × String)
    (ht : t ∈ PUNISHMENT_THRESHOLDS) (hin : inThreshold p t = true)
    (ht' : t' ∈ PUNISHMENT_THRESHOLDS) (hin' : inThreshold p t' = true) : t = t' := by
  simp only [PUNISHMENT_THRESHOLDS, List.mem_cons, List.not_mem_nil, or_false] at ht ht'
  rcases ht with rfl | rfl | rfl | rfl | rfl | rfl | rfl | rfl | rfl <;>
    rcases ht' with rfl | rfl | rfl | rfl | rfl | rfl | rfl | rfl | rfl <;>
    first
      | rfl
      | (simp only [inThreshold] at hin hin'; simp at hin hin'; omega)

/-- Severity rank of the selected label, as arithmetic on `p`. -/
theorem actionRank_get_punishment_action (p : Int) (hp : 0 ≤ p) :
    actionRank (get_punishment_action p) =
      if p ≤ 14 then 0 else if p ≤ 24 then 1 else if p ≤ 34 then 2
      else if p ≤ 44 then 3 else if p ≤ 59 then 4 else if p ≤ 74 then 5
      else if p ≤ 89 then 6 else if p ≤ 99 then 7 else 8 := by
  rw [get_punishment_action_closed p hp]
  split_ifs <;> decide

set_option maxHeartbeats 1000000 in
/-- Monotonicity of the severity rank in the points value. -/
theorem actionRank_mono (p q : Int) (hp : 0 ≤ p) (hq : p ≤ q) :
    actionRank (get_punishment_action p) ≤ actionRank (get_punishment_action q) := by
  rw [actionRank_get_punishment_action p hp,
    actionRank_get_punishment_action q (hp.trans hq)]
  by_cases h1 : p ≤ 14
  · rw [if_pos h1]; split_ifs <;> omega
  rw [if_neg h1]
  by_cases h2 : p ≤ 24
  · rw [if_pos h2]; split_ifs <;> omega
  rw [if_neg h2]
  by_cases h3 : p ≤ 34
  · rw [if_pos h3]; split_ifs <;> omega
  rw [if_neg h3]
  by_cases h4 : p ≤ 44
  · rw [if_pos h4]; split_ifs <;> omega
  rw [if_neg h4]
  by_cases h5 : p ≤ 59
  · rw [if_pos h5]; split_ifs <;> omega
  rw [if_neg h5]
  by_cases h6 : p ≤ 74
  · rw [if_pos h6]; split_ifs <;> omega
  rw [if_neg h6]
  by_cases h7 : p ≤ 89
  · rw [if_pos h7]; split_ifs <;> omega
  rw [if_neg h7]
  by_cases h8 : p ≤ 99
  · rw [if_pos h8]; split_ifs <;> omega
  rw [if_neg h8]
  split_ifs <;> omega

/-- C4: every non-negative `p` lies in exactly one inclusive threshold row,
`get_punishment_action` returns that row's label (so each non-negative
integer maps to exactly one of the nine labels, boundaries inclusive), and
the label's severity rank is monotonic non-decreasing in `p`. -/
theorem get_punishment_action_spec (p : Int) (hp : 0 ≤ p) :
    (∃! t, t ∈ PUNISHMENT_THRESHOLDS ∧ inThreshold p t = true)
    ∧ (∀ t, t ∈ PUNISHMENT_THRESHOLDS → inThreshold p t = true →
        get_punishment_action p = t.2.2)
    ∧ (∀ q : Int, p ≤ q →
        actionRank (get_punishment_action p) ≤ actionRank (get_punishment_action q)) := by
  have hex : ∃ t, t ∈ PUNISHMENT_THRESHOLDS ∧ inThreshold p t = true := by
    by_cases h1 : p ≤ 14
    · exact ⟨(0, some 14, "Written Warning"), by simp [PUNISHMENT_THRESHOLDS],
        by simp [inThreshold]; omega⟩
    by_cases h2 : p ≤ 24
    · exact ⟨(15, some 24, "3-Hour Ban"), by simp [PUNISHMENT_THRESHOLDS],
        by simp [inThreshold]; omega⟩
    by_cases h3 : p ≤ 34
    · exact ⟨(25, some 34, "12-Hour Ban"), by simp [PUNISHMENT_THRESHOLDS],
        by simp [inThreshold]; omega⟩
    by_cases h4 : p ≤ 44
    · exact ⟨(35, some 44, "1-Day Ban"), by simp [PUNISHMENT_THRESHOLDS],
        by simp [inThreshold]; omega⟩
    by_cases h5 : p ≤ 59
    · exact ⟨(45, some 59, "3-Day Ban"), by simp [PUNISHMENT_THRESHOLDS],
        by simp [inThreshold]; omega⟩
    by_cases h6 : p ≤ 74
    · exact ⟨(60, some 74, "1-Week Ban"), by simp [PUNISHMENT_THRESHOLDS],
        by simp [inThreshold]; omega⟩
    by_cases h7 : p ≤ 89
    · exact ⟨(75, some 89, "2-Week Ban"), by simp [PUNISHMENT_THRESHOLDS],
        by simp [inThreshold]; omega⟩
    by_cases h8 : p ≤ 99
    · exact ⟨(90, some 99, "1-Month Ban"), by simp [PUNISHMENT_THRESHOLDS],
        by simp [inThreshold]; omega⟩
    · exact ⟨(100, none, "Permanent Ban"), by simp [PUNISHMENT_THRESHOLDS],
        by simp [inThreshold]; omega⟩
  obtain ⟨t0, ht0, hin0⟩ := hex
  have hfind : ∀ t, t ∈ PUNISHMENT_THRESHOLDS → inThreshold p t = true →
      get_punishment_action p = t.2.2 := by
    intro t ht hin
    cases hcase : PUNISHMENT_THRESHOLDS.find? (inThreshold p) with
    | none =>
      exact absurd hin (by simpa using List.find?_eq_none.mp hcase t ht)
    | some u =>
      have hu : u = t :=
        inThreshold_unique p u t (List.mem_of_find?_eq_some hcase)
          (List.find?_some hcase) ht hin
      unfold get_punishment_action
      rw [hcase, hu]
      rfl
  refine ⟨⟨t0, ⟨ht0, hin0⟩, ?_⟩, hfind, ?_⟩
  · intro t' ht'
    exact inThreshold_unique p t' t0 ht'.1 ht'.2 ht0 hin0
  · intro q hq
    exact actionRank_mono p q hp hq

/-- Witness for C4 at `p = 25` and `q = 100`: 25 lands in the 12-Hour-Ban
row and the rank is non-decreasing from 25 to 100. -/
theorem get_punishment_action_spec_witness :
    get_punishment_action 25 = "12-Hour Ban"
    ∧ actionRank (get_punishment_action 25) ≤ actionRank (get_punishment_action 100) := by
  have h := get_punishment_action_spec 25 (by norm_num)
  exact ⟨h.2.1 (25, some 34, "12-Hour Ban") (by simp [PUNISHMENT_THRESHOLDS])
    (by decide), h.2.2 100 (by norm_num)⟩

/-- C1: `_calculate_expiry` diverges from the catalog.  The catalog grades
"DDoS / Dox / Exploiting / Hacking" as grade 3, but the duplicated
`grade_map` inside `_calculate_expiry` omits that entry, so the expiry
defaults to the grade-1 window `+2 weeks` instead of `+8 weeks`; every
other catalog type gets the window its catalog grade dictates. -/
theorem calculate_expiry_ddos_mismatch :
    (dlookup VIOLATIONS "DDoS / Dox / Exploiting / Hacking").map ViolationDef.grade
        = some 3
    ∧ (∀ now : Time, DatabaseManager.calculate_expiry
        "DDoS / Dox / Exploiting / Hacking" now = now + 2 * week)
    ∧ (∀ now : Time, DatabaseManager.calculate_expiry
        "DDoS / Dox / Exploiting / Hacking" now ≠ now + 8 * week)
    ∧ (∀ p, p ∈ VIOLATIONS → p.1 ≠ "DDoS / Dox / Exploiting / Hacking" →
        ∀ now : Time, DatabaseManager.calculate_expiry p.1 now =
          now + (if p.2.grade = 1 then 2 else if p.2.grade = 2 then 4 else 8) * week) := by
  refine ⟨rfl, fun _ => rfl, ?_, ?_⟩
  · intro now h
    have h2 : DatabaseManager.calculate_expiry
        "DDoS / Dox / Exploiting / Hacking" now = now + 2 * week := rfl
    rw [h2] at h
    norm_num [week, day] at h
  · intro p hp hne now
    simp only [VIOLATIONS, List.mem_cons, List.not_mem_nil, or_false] at hp
    rcases hp with rfl | rfl | rfl | rfl | rfl | rfl | rfl | rfl | rfl | rfl | rfl |
      rfl | rfl | rfl | rfl | rfl | rfl
    all_goals first | rfl | (exact absurd rfl hne)

/-- Witness for C1: the grade-3 type "NITRP" gets the 8-week window, while
the (catalog-grade-3) DDoS type gets only the 2-week window. -/
theorem calculate_expiry_ddos_mismatch_witness :
    DatabaseManager.calculate_expiry "NITRP" 0 = 0 + 8 * week
    ∧ DatabaseManager.calculate_expiry "DDoS / Dox / Exploiting / Hacking" 0
        = 0 + 2 * week := by
  have h := calculate_expiry_ddos_mismatch
  refine ⟨?_, h.2.1 0⟩
  have h4 := h.2.2.2 ("NITRP", ⟨30, 10, "Trolling or refusing to engage in RP.", 3⟩)
    (by simp [VIOLATIONS]) (by decide) 0
  simpa using h4

/-- The prior-warning count the code actually uses, written directly over the
stored state: the user's ACTIVE (non-removed, non-expired) warnings of the
given type. -/
def previous_violations_active (d : DbData) (user_id : Int) (violation_type : String)
    (now : Time) : Nat :=
  match dlookup d.users user_id with
  | none => 0
  | some rec =>
    ((rec.warnings.filterMap (fun wid => dlookup d.warnings wid)).filter
      (fun w => decide (now < w.expires_at) && !w.removed
        && decide (w.violation_type = violation_type))).length

/-- The per-id extraction step of `get_user_warnings` (named so that it can
be rewritten against; definitionally equal to the inline loop body). -/
def activeExtract (wmap : List (String × Warning)) (now : Time) (wid : String) :
    Option Warning :=
  match dlookup wmap wid with
  | some w => if now < w.expires_at ∧ w.removed = false then some w else none
  | none => none

theorem countP_type_active (ids : List String) (wmap : List (String × Warning))
    (now : Time) (violation_type : String) :
    ((ids.filterMap (activeExtract wmap now)).countP
        (fun w => decide (w.violation_type = violation_type)))
    = ((ids.filterMap (dlookup wmap)).countP
        (fun w => decide (now < w.expires_at) && !w.removed
          && decide (w.violation_type = violation_type))) := by
  induction ids with
  | nil => rfl
  | cons wid ids ih =>
    cases hw : dlookup wmap wid with
    | none =>
      have hl : activeExtract wmap now wid = none := by
        unfold activeExtract
        rw [hw]
      rw [List.filterMap_cons_none hl, List.filterMap_cons_none hw]
      exact ih
    | some w =>
      rw [List.filterMap_cons_some hw, List.countP_cons]
      by_cases hact : now < w.expires_at ∧ w.removed = false
      · have hl : activeExtract wmap now wid = some w := by
          unfold activeExtract
          rw [hw]
          simp [hact]
        rw [List.filterMap_cons_some hl, List.countP_cons, ih]
        have h1 : decide (now < w.expires_at) = true := by simp [hact.1]
        have h2 : (!w.removed) = true := by simp [hact.2]
        simp [h1, h2]
      · have hl : activeExtract wmap now wid = none := by
          unfold activeExtract
          rw [hw]
          simp [hact]
        rw [List.filterMap_cons_none hl, ih]
        have hfalse : (decide (now < w.expires_at) && !w.removed
            && decide (w.violation_type = violation_type)) = false := by
          by_cases h1 : now < w.expires_at
          · have h2 : w.removed = true := by
              rcases Bool.eq_false_or_eq_true w.removed with h | h
              · exact h
              · exact absurd ⟨h1, h⟩ hact
            simp [h2]
          · simp [h1]
        simp [hfalse]

theorem get_user_warnings_none (d : DbData) (u : Int) (now : Time)
    (h : dlookup d.users u = none) :
    DatabaseManager.get_user_warnings d u now = [] := by
  unfold DatabaseManager.get_user_warnings
  rw [h]

theorem get_user_warnings_some (d : DbData) (u : Int) (now : Time) (rec : UserRec)
    (h : dlookup d.users u = some rec) :
    DatabaseManager.get_user_warnings d u now =
      (rec.warnings.filterMap (activeExtract d.warnings now)).insertionSort
        DatabaseManager.tsGE := by
  unfold DatabaseManager.get_user_warnings
  rw [h]
  rfl

theorem previous_violations_active_none (d : DbData) (u : Int)
    (violation_type : String) (now : Time) (h : dlookup d.users u = none) :
    previous_violations_active d u violation_type now = 0 := by
  unfold previous_violations_active
  rw [h]

theorem previous_violations_active_some (d : DbData) (u : Int)
    (violation_type : String) (now : Time) (rec : UserRec)
    (h : dlookup d.users u = some rec) :
    previous_violations_active d u violation_type now =
      ((rec.warnings.filterMap (dlookup d.warnings)).filter
        (fun w => decide (now < w.expires_at) && !w.removed
          && decide (w.violation_type = violation_type))).length := by
  unfold previous_violations_active
  rw [h]

/-- The bot's prior count equals the active-warning count over the raw state
(sorting does not change the count). -/
theorem previous_violations_eq_active (d : DbData) (u : Int)
    (violation_type : String) (now : Time) :
    Bot.previous_violations d u violation_type now
      = previous_violations_active d u violation_type now := by
  unfold Bot.previous_violations
  cases h : dlookup d.users u with
  | none =>
    rw [get_user_warnings_none d u now h, previous_violations_active_none d u
      violation_type now h]
    rfl
  | some rec =>
    rw [get_user_warnings_some d u now rec h, previous_violations_active_some d u
      violation_type now rec h]
    rw [← List.countP_eq_length_filter, ← List.countP_eq_length_filter]
    rw [List.Perm.countP_eq _ (List.perm_insertionSort DatabaseManager.tsGE _)]
    exact countP_type_active rec.warnings d.warnings now violation_type

/-- The store backing the C3 counterexample: user 7 receives one
"RDM / VDM" warning at time 0 (id "1"), which is then removed at time 1. -/
def dC3 : DbData :=
  (DatabaseManager.remove_warning
    (DatabaseManager.add_warning emptyDb 7 9 "RDM / VDM" 10 [] "desc" 0).2
    "1" 9 "removed" 1).2

/-- Counterexample to C3: at time 2, user 7 has one STORED "RDM / VDM"
warning (so the claim's unfiltered priorCount is 1 and its predicted points
are 10 + 5 * 1 = 15), but the code counts prior warnings over the ACTIVE
list only, so the removed warning is skipped and the issued points are 10. -/
theorem previous_violations_unfiltered_counterexample :
    Bot.issue_points dC3 7 "RDM / VDM" 2 = 10
    ∧ previous_violations_claimed dC3 7 "RDM / VDM" = 1
    ∧ (dlookup VIOLATIONS "RDM / VDM").map ViolationDef.base_points = some 10
    ∧ (dlookup VIOLATIONS "RDM / VDM").map ViolationDef.repeat_penalty = some 5
    ∧ Bot.issue_points dC3 7 "RDM / VDM" 2
        ≠ 10 + 5 * (previous_violations_claimed dC3 7 "RDM / VDM" : Int) := by
  refine ⟨by decide, by decide, rfl, rfl, by decide⟩

/-- C3 (amended): the points of an issued warning are
`base_points + repeat_penalty * priorCount` where `priorCount` counts the
user's currently ACTIVE (non-removed, non-expired) stored warnings of that
exact violation type; `calculate_points` returns 0 for an unknown type. -/
theorem issue_points_spec (d : DbData) (u : Int) (violation_type : String)
    (now : Time) :
    (∀ vd, dlookup VIOLATIONS violation_type = some vd →
      Bot.issue_points d u violation_type now =
        vd.base_points + vd.repeat_penalty
          * (previous_violations_active d u violation_type now : Int))
    ∧ (dlookup VIOLATIONS violation_type = none →
      ∀ n : Nat, calculate_points violation_type n = 0) := by
  constructor
  · intro vd hvd
    unfold Bot.issue_points calculate_points
    rw [hvd, previous_violations_eq_active]
  · intro hnone n
    unfold calculate_points
    rw [hnone]

/-- Witness for C3's amended theorem: on `dSample` (one active "NLR"
warning) a second "NLR" at time 5 is worth 10 + 5 * 1 = 15 points, and an
unknown violation type is worth 0. -/
theorem issue_points_spec_witness :
    Bot.issue_points dSample 7 "NLR" 5 = 15
    ∧ calculate_points "No Such Violation" 3 = 0 := by
  have h1 := (issue_points_spec dSample 7 "NLR" 5).1
    ⟨10, 5, "Returning to the scene after death.", 1⟩ (by rfl)
  have h2 := (issue_points_spec dSample 7 "No Such Violation" 5).2 (by rfl) 3
  refine ⟨?_, h2⟩
  rw [h1]
  decide

/-- The loop body of `get_user_points` (named; definitionally equal to the
inline loop body). -/
def pointsStep (wmap : List (String × Warning)) (now : Time) (total : Int)
    (wid : String) : Int :=
  match dlookup wmap wid with
  | some w => if now < w.expires_at ∧ w.removed = false then total + w.points else total
  | none => total

theorem get_user_points_none (d : DbData) (u : Int) (now : Time)
    (h : dlookup d.users u = none) : DatabaseManager.get_user_points d u now = 0 := by
  unfold DatabaseManager.get_user_points
  rw [h]

theorem get_user_points_some (d : DbData) (u : Int) (now : Time) (rec : UserRec)
    (h : dlookup d.users u = some rec) :
    DatabaseManager.get_user_points d u now =
      rec.warnings.foldl (pointsStep d.warnings now) 0 := by
  unfold DatabaseManager.get_user_points
  rw [h]
  rfl

/-- The spec's reading of `getUserActivePoints`: the sum of `points` over the
user's referenced warnings with `now < expires_at` and `removed == false`. -/
def specActivePoints (d : DbData) (u : Int) (now : Time) : Int :=
  match dlookup d.users u with
  | none => 0
  | some rec =>
    (((rec.warnings.filterMap (dlookup d.warnings)).filter
      (fun w => decide (now < w.expires_at) && !w.removed)).map Warning.points).sum

/-- The same sum with one warning id excluded from consideration. -/
def specActivePointsExcept (d : DbData) (u : Int) (wid : String) (now : Time) : Int :=
  match dlookup d.users u with
  | none => 0
  | some rec =>
    ((((rec.warnings.filter (fun i => decide (i ≠ wid))).filterMap
        (dlookup d.warnings)).filter
      (fun w => decide (now < w.expires_at) && !w.removed)).map Warning.points).sum

theorem foldl_pointsStep (wmap : List (String × Warning)) (now : Time)
    (ids : List String) (acc : Int) :
    ids.foldl (pointsStep wmap now) acc
      = acc + (((ids.filterMap (dlookup wmap)).filter
        (fun w => decide (now < w.expires_at) && !w.removed)).map Warning.points).sum := by
  induction ids generalizing acc with
  | nil => simp
  | cons wid ids ih =>
    rw [List.foldl_cons, ih]
    cases hw : dlookup wmap wid with
    | none =>
      have hstep : pointsStep wmap now acc wid = acc := by
        unfold pointsStep
        rw [hw]
      rw [List.filterMap_cons_none hw, hstep]
    | some w =>
      have hstep : pointsStep wmap now acc wid =
          if now < w.expires_at ∧ w.removed = false then acc + w.points else acc := by
        unfold pointsStep
        rw [hw]
      rw [List.filterMap_cons_some hw, List.filter_cons, hstep]
      by_cases hact : now < w.expires_at ∧ w.removed = false
      · rw [if_pos hact]
        have hb : (decide (now < w.expires_at) && !w.removed) = true := by
          simp [hact.1, hact.2]
        rw [hb, if_pos rfl, List.map_cons, List.sum_cons]
        omega
      · rw [if_neg hact]
        have hb : (decide (now < w.expires_at) && !w.removed) = false := by
          by_cases h1 : now < w.expires_at
          · have h2 : w.removed = true := by
              rcases Bool.eq_false_or_eq_true w.removed with h | h
              · exact h
              · exact absurd ⟨h1, h⟩ hact
            simp [h2]
          · simp [h1]
        rw [hb]
        simp

theorem specActivePoints_none (d : DbData) (u : Int) (now : Time)
    (h : dlookup d.users u = none) : specActivePoints d u now = 0 := by
  unfold specActivePoints
  rw [h]

theorem specActivePoints_some (d : DbData) (u : Int) (now : Time) (rec : UserRec)
    (h : dlookup d.users u = some rec) :
    specActivePoints d u now =
      (((rec.warnings.filterMap (dlookup d.warnings)).filter
        (fun w => decide (now < w.expires_at) && !w.removed)).map Warning.points).sum := by
  unfold specActivePoints
  rw [h]

theorem specActivePointsExcept_some (d : DbData) (u : Int) (wid : String)
    (now : Time) (rec : UserRec) (h : dlookup d.users u = some rec) :
    specActivePointsExcept d u wid now =
      ((((rec.warnings.filter (fun i => decide (i ≠ wid))).filterMap
          (dlookup d.warnings)).filter
        (fun w => decide (now < w.expires_at) && !w.removed)).map Warning.points).sum := by
  unfold specActivePointsExcept
  rw [h]

/-- C6 part 1: `get_user_points` computes the spec's active-points sum. -/
theorem get_user_points_eq_spec (d : DbData) (u : Int) (now : Time) :
    DatabaseManager.get_user_points d u now = specActivePoints d u now := by
  cases h : dlookup d.users u with
  | none => rw [get_user_points_none d u now h, specActivePoints_none d u now h]
  | some rec =>
    rw [get_user_points_some d u now rec h, specActivePoints_some d u now rec h,
      foldl_pointsStep]
    omega

/-- Skipping an id whose stored warning is removed does not change the
active-filtered extraction. -/
theorem filter_except_removed (ids : List String) (wmap : List (String × Warning))
    (wid : String) (now : Time)
    (hrem : ∀ w, dlookup wmap wid = some w → w.removed = true) :
    ((ids.filterMap (dlookup wmap)).filter
        (fun w => decide (now < w.expires_at) && !w.removed))
      = (((ids.filter (fun i => decide (i ≠ wid))).filterMap (dlookup wmap)).filter
        (fun w => decide (now < w.expires_at) && !w.removed)) := by
  induction ids with
  | nil => rfl
  | cons i ids ih =>
    rw [List.filter_cons]
    by_cases hi : i = wid
    · subst hi
      have : (decide (i ≠ i)) = false := by simp
      rw [this, if_neg (by simp)]
      cases hw : dlookup wmap i with
      | none => rw [List.filterMap_cons_none hw, ih]
      | some w =>
        rw [List.filterMap_cons_some hw, List.filter_cons]
        have : (decide (now < w.expires_at) && !w.removed) = false := by
          simp [hrem w hw]
        rw [this, if_neg (by simp), ih]
    · rw [if_pos (by simpa using hi)]
      cases hw : dlookup wmap i with
      | none => rw [List.filterMap_cons_none hw, List.filterMap_cons_none hw, ih]
      | some w =>
        rw [List.filterMap_cons_some hw, List.filterMap_cons_some hw,
          List.filter_cons, List.filter_cons, ih]

theorem find_warnings_by_user_some (d : DbData) (u : Int) (limit : Nat)
    (rec : UserRec) (h : dlookup d.users u = some rec) :
    DatabaseManager.find_warnings_by_user d u limit =
      ((rec.warnings.filterMap (dlookup d.warnings)).insertionSort
        DatabaseManager.tsGE).take limit := by
  unfold DatabaseManager.find_warnings_by_user
  rw [h]

theorem specActivePointsExcept_none (d : DbData) (u : Int) (wid : String)
    (now : Time) (h : dlookup d.users u = none) :
    specActivePointsExcept d u wid now = 0 := by
  unfold specActivePointsExcept
  rw [h]

/-- C6: `getUserActivePoints` returns the sum of points over the user's
warnings with `now < expires_at` and `removed == false`, returns 0 for an
unknown user, and after a successful `removeWarning(id)` it no longer
includes that warning's points while `findAllWarningsForUser` (within its
limit) still returns the warning with `removed=true`. -/
theorem get_user_active_points_spec (d : DbData) (u : Int) (now : Time) :
    DatabaseManager.get_user_points d u now = specActivePoints d u now
    ∧ (dlookup d.users u = none → DatabaseManager.get_user_points d u now = 0)
    ∧ (∀ wid mod reason t,
        (DatabaseManager.remove_warning d wid mod reason t).1 = true →
          DatabaseManager.get_user_points
              (DatabaseManager.remove_warning d wid mod reason t).2 u now
            = specActivePointsExcept
              (DatabaseManager.remove_warning d wid mod reason t).2 u wid now
        ∧ ∃ w', dlookup
              (DatabaseManager.remove_warning d wid mod reason t).2.warnings wid
              = some w'
            ∧ w'.removed = true
            ∧ (∀ rec limit,
                dlookup (DatabaseManager.remove_warning d wid mod reason t).2.users u
                  = some rec →
                wid ∈ rec.warnings → rec.warnings.length ≤ limit →
                w' ∈ DatabaseManager.find_warnings_by_user
                  (DatabaseManager.remove_warning d wid mod reason t).2 u limit)) := by
  refine ⟨get_user_points_eq_spec d u now, fun h => get_user_points_none d u now h, ?_⟩
  intro wid mod reason t hsucc
  have hc : dcontains d.warnings wid = true := by
    by_contra hcn
    rw [Bool.not_eq_true] at hcn
    unfold DatabaseManager.remove_warning at hsucc
    rw [hcn] at hsucc
    simp at hsucc
  obtain ⟨w, hw⟩ := Option.isSome_iff_exists.mp (by simpa [dcontains] using hc)
  have hd' : (DatabaseManager.remove_warning d wid mod reason t).2 =
      { d with warnings := dmodify d.warnings wid (fun w => DatabaseManager.removalStamp w mod reason t) } := by
    unfold DatabaseManager.remove_warning
    rw [hc]
    rfl
  have hlook : dlookup (DatabaseManager.remove_warning d wid mod reason t).2.warnings
      wid = some (DatabaseManager.removalStamp w mod reason t) := by
    rw [hd']
    show dlookup (dmodify d.warnings wid
      (fun w => DatabaseManager.removalStamp w mod reason t)) wid = _
    rw [dlookup_dmodify_self, hw]
    rfl
  have hrem : ∀ w', dlookup
      (DatabaseManager.remove_warning d wid mod reason t).2.warnings wid = some w' →
      w'.removed = true := by
    intro w' hw'
    rw [hlook] at hw'
    cases hw'
    rfl
  constructor
  · cases hu : dlookup (DatabaseManager.remove_warning d wid mod reason t).2.users u with
    | none =>
      rw [get_user_points_none _ _ _ hu, specActivePointsExcept_none _ _ _ _ hu]
    | some rec =>
      rw [get_user_points_eq_spec, specActivePoints_some _ _ _ rec hu,
        specActivePointsExcept_some _ _ _ _ rec hu,
        filter_except_removed rec.warnings _ wid now hrem]
  · refine ⟨DatabaseManager.removalStamp w mod reason t, hlook, rfl, ?_⟩
    intro rec limit hu hmem hlen
    rw [find_warnings_by_user_some _ _ _ rec hu]
    have hperm := List.perm_insertionSort DatabaseManager.tsGE
      (rec.warnings.filterMap
        (dlookup (DatabaseManager.remove_warning d wid mod reason t).2.warnings))
    have hfm : (rec.warnings.filterMap
        (dlookup (DatabaseManager.remove_warning d wid mod reason t).2.warnings)).length
        ≤ rec.warnings.length := List.length_filterMap_le _ _
    rw [List.take_of_length_le (by rw [hperm.length_eq]; omega)]
    exact hperm.mem_iff.mpr (List.mem_filterMap.mpr ⟨wid, hmem, hlook⟩)

/-- The re-stamped form of `wSample` after `remove_warning _ "1" 9 "r" 5`. -/
def wSampleRemoved : Warning :=
  { wSample with removed := true, removed_by := some 9, removed_at := some 5,
                 removal_reason := some "r", expires_at := 5 - day }

/-- Witness for C6 on `dSample`: after removing warning "1" at time 5, the
user's active points at time 10 are 0, and `find_warnings_by_user` still
returns the re-stamped warning. -/
theorem get_user_active_points_spec_witness :
    DatabaseManager.get_user_points
        (DatabaseManager.remove_warning dSample "1" 9 "r" 5).2 7 10 = 0
    ∧ wSampleRemoved ∈ DatabaseManager.find_warnings_by_user
        (DatabaseManager.remove_warning dSample "1" 9 "r" 5).2 7 100 := by
  have h := (get_user_active_points_spec dSample 7 10).2.2 "1" 9 "r" 5 (by decide)
  obtain ⟨hpts, w', hw', _hrem, hmem⟩ := h
  have hconc : dlookup (DatabaseManager.remove_warning dSample "1" 9 "r" 5).2.warnings
      "1" = some wSampleRemoved := by decide
  rw [hconc] at hw'
  cases hw'
  constructor
  · rw [hpts]
    decide
  · exact hmem { total_points := 10, warnings := ["1"], bans := [] } 100 (by decide)
      (by decide) (by decide)

/-- Whether the stored warning behind `wid` is currently active. -/
def activeAt (wmap : List (String × Warning)) (now : Time) (wid : String) : Bool :=
  match dlookup wmap wid with
  | some w => decide (now < w.expires_at) && !w.removed
  | none => false

theorem activeAt_none (wmap : List (String × Warning)) (now : Time) (i : String)
    (hw : dlookup wmap i = none) : activeAt wmap now i = false := by
  unfold activeAt
  rw [hw]

theorem activeAt_some (wmap : List (String × Warning)) (now : Time) (i : String)
    (w : Warning) (hw : dlookup wmap i = some w) :
    activeAt wmap now i = (decide (now < w.expires_at) && !w.removed) := by
  unfold activeAt
  rw [hw]

theorem removeUserStep_pair_none (mod : Int) (reason : String) (now : Time)
    (c : Nat) (ws : List (String × Warning)) (i : String)
    (hw : dlookup ws i = none) :
    DatabaseManager.removeUserStep mod reason now (c, ws) i = (c, ws) := by
  unfold DatabaseManager.removeUserStep
  rw [show dlookup (c, ws).2 i = none from hw]

theorem removeUserStep_pair_some (mod : Int) (reason : String) (now : Time)
    (c : Nat) (ws : List (String × Warning)) (i : String) (w : Warning)
    (hw : dlookup ws i = some w) :
    DatabaseManager.removeUserStep mod reason now (c, ws) i =
      if now < w.expires_at ∧ w.removed = false
      then (c + 1,
        dmodify ws i (fun w => DatabaseManager.removalStamp w mod reason now))
      else (c, ws) := by
  unfold DatabaseManager.removeUserStep
  rw [show dlookup (c, ws).2 i = some w from hw]

theorem countP_congr_mem {α : Type} (l : List α) (p q : α → Bool)
    (h : ∀ a, a ∈ l → p a = q a) : l.countP p = l.countP q := by
  induction l with
  | nil => rfl
  | cons a l ih =>
    rw [List.countP_cons, List.countP_cons,
      ih (fun b hb => h b (List.mem_cons_of_mem _ hb)), h a (List.mem_cons_self _ _)]

theorem foldl_removeUserStep_not_mem (mod : Int) (reason : String) (now : Time)
    (ids : List String) :
    ∀ (c : Nat) (ws : List (String × Warning)) (k : String), k ∉ ids →
    dlookup (ids.foldl (DatabaseManager.removeUserStep mod reason now) (c, ws)).2 k
      = dlookup ws k := by
  induction ids with
  | nil => intro c ws k _; rfl
  | cons i ids ih =>
    intro c ws k hk
    have hki : k ≠ i ∧ k ∉ ids := by simpa [List.mem_cons, not_or] using hk
    rw [List.foldl_cons]
    cases hw : dlookup ws i with
    | none => rw [removeUserStep_pair_none mod reason now c ws i hw, ih c ws k hki.2]
    | some w =>
      rw [removeUserStep_pair_some mod reason now c ws i w hw]
      by_cases hact : now < w.expires_at ∧ w.removed = false
      · rw [if_pos hact, ih (c + 1)
          (dmodify ws i (fun w => DatabaseManager.removalStamp w mod reason now)) k hki.2]
        exact dlookup_dmodify_ne _ _ _ _ hki.1
      · rw [if_neg hact, ih c ws k hki.2]

theorem foldl_removeUserStep_count (mod : Int) (reason : String) (now : Time)
    (ids : List String) :
    ∀ (c : Nat) (ws : List (String × Warning)), ids.Nodup →
    (ids.foldl (DatabaseManager.removeUserStep mod reason now) (c, ws)).1
      = c + ids.countP (activeAt ws now) := by
  induction ids with
  | nil => intro c ws _; simp
  | cons i ids ih =>
    intro c ws hnd
    rw [List.nodup_cons] at hnd
    rw [List.foldl_cons, List.countP_cons]
    cases hw : dlookup ws i with
    | none =>
      rw [removeUserStep_pair_none mod reason now c ws i hw, ih c ws hnd.2,
        activeAt_none ws now i hw]
      simp
    | some w =>
      rw [removeUserStep_pair_some mod reason now c ws i w hw]
      by_cases hact : now < w.expires_at ∧ w.removed = false
      · rw [if_pos hact, ih (c + 1)
          (dmodify ws i (fun w => DatabaseManager.removalStamp w mod reason now)) hnd.2]
        have hcong : ids.countP (activeAt (dmodify ws i
            (fun w => DatabaseManager.removalStamp w mod reason now)) now)
            = ids.countP (activeAt ws now) := by
          apply countP_congr_mem
          intro a ha
          unfold activeAt
          rw [dlookup_dmodify_ne _ _ _ _ (fun he => hnd.1 (by rw [← he]; exact ha))]
        have hai : activeAt ws now i = true := by
          rw [activeAt_some ws now i w hw]
          simp [hact.1, hact.2]
        rw [hcong, hai]
        simp
        omega
      · rw [if_neg hact, ih c ws hnd.2]
        have hai : activeAt ws now i = false := by
          rw [activeAt_some ws now i w hw]
          by_cases h1 : now < w.expires_at
          · have h2 : w.removed = true := by
              rcases Bool.eq_false_or_eq_true w.removed with h | h
              · exact h
              · exact absurd ⟨h1, h⟩ hact
            simp [h2]
          · simp [h1]
        rw [hai]
        simp

theorem foldl_removeUserStep_mem (mod : Int) (reason : String) (now : Time)
    (ids : List String) :
    ∀ (c : Nat) (ws : List (String × Warning)) (k : String), ids.Nodup → k ∈ ids →
    dlookup (ids.foldl (DatabaseManager.removeUserStep mod reason now) (c, ws)).2 k
      = (dlookup ws k).map (fun w =>
          if now < w.expires_at ∧ w.removed = false
          then DatabaseManager.removalStamp w mod reason now else w) := by
  induction ids with
  | nil => intro c ws k _ hk; simp at hk
  | cons i ids ih =>
    intro c ws k hnd hk
    rw [List.nodup_cons] at hnd
    rw [List.foldl_cons]
    by_cases hki : k = i
    · subst hki
      cases hw : dlookup ws k with
      | none =>
        rw [removeUserStep_pair_none mod reason now c ws k hw,
          foldl_removeUserStep_not_mem mod reason now ids c ws k hnd.1, hw]
        rfl
      | some w =>
        rw [removeUserStep_pair_some mod reason now c ws k w hw]
        by_cases hact : now < w.expires_at ∧ w.removed = false
        · rw [if_pos hact, foldl_removeUserStep_not_mem mod reason now ids (c + 1)
            (dmodify ws k (fun w => DatabaseManager.removalStamp w mod reason now))
            k hnd.1, dlookup_dmodify_self, hw]
          simp [if_pos hact]
        · rw [if_neg hact,
            foldl_removeUserStep_not_mem mod reason now ids c ws k hnd.1, hw]
          simp [if_neg hact]
    · have hk2 : k ∈ ids := by
        rcases List.mem_cons.mp hk with h | h
        · exact absurd h hki
        · exact h
      cases hw : dlookup ws i with
      | none =>
        rw [removeUserStep_pair_none mod reason now c ws i hw]
        exact ih c ws k hnd.2 hk2
      | some w =>
        rw [removeUserStep_pair_some mod reason now c ws i w hw]
        by_cases hact : now < w.expires_at ∧ w.removed = false
        · rw [if_pos hact, ih (c + 1)
            (dmodify ws i (fun w => DatabaseManager.removalStamp w mod reason now))
            k hnd.2 hk2, dlookup_dmodify_ne _ _ _ _ hki]
        · rw [if_neg hact]
          exact ih c ws k hnd.2 hk2

theorem remove_user_warnings_none_user (d : DbData) (u mod : Int) (reason : String)
    (now : Time) (h : dlookup d.users u = none) :
    DatabaseManager.remove_user_warnings d u mod reason now = (0, d) := by
  unfold DatabaseManager.remove_user_warnings
  rw [h]

theorem remove_user_warnings_some_user (d : DbData) (u mod : Int) (reason : String)
    (now : Time) (rec : UserRec) (h : dlookup d.users u = some rec) :
    DatabaseManager.remove_user_warnings d u mod reason now =
      ((rec.warnings.foldl (DatabaseManager.removeUserStep mod reason now)
          (0, d.warnings)).1,
       { d with warnings := (rec.warnings.foldl
          (DatabaseManager.removeUserStep mod reason now) (0, d.warnings)).2 }) := by
  unfold DatabaseManager.remove_user_warnings
  rw [h]

/-- C8: `remove_user_warnings` stamps exactly the user's currently-active
warnings, returns their count, returns `(0, d)` for an unknown user, and an
immediately subsequent call (at the same or a later time) returns 0. -/
theorem remove_user_warnings_spec (d : DbData) (u mod : Int) (reason : String)
    (now : Time) :
    (dlookup d.users u = none →
      DatabaseManager.remove_user_warnings d u mod reason now = (0, d))
    ∧ (∀ rec, dlookup d.users u = some rec → rec.warnings.Nodup →
        (DatabaseManager.remove_user_warnings d u mod reason now).1
          = (rec.warnings.filter (activeAt d.warnings now)).length
        ∧ (∀ wid, wid ∈ rec.warnings →
            dlookup (DatabaseManager.remove_user_warnings d u mod reason
                now).2.warnings wid
              = (dlookup d.warnings wid).map (fun w =>
                  if now < w.expires_at ∧ w.removed = false
                  then DatabaseManager.removalStamp w mod reason now else w))
        ∧ (∀ wid, wid ∉ rec.warnings →
            dlookup (DatabaseManager.remove_user_warnings d u mod reason
                now).2.warnings wid
              = dlookup d.warnings wid)
        ∧ (DatabaseManager.remove_user_warnings d u mod reason now).2.users = d.users
        ∧ (∀ mod2 reason2 now2, now ≤ now2 →
            (DatabaseManager.remove_user_warnings
              (DatabaseManager.remove_user_warnings d u mod reason now).2
              u mod2 reason2 now2).1 = 0)) := by
  constructor
  · exact fun h => remove_user_warnings_none_user d u mod reason now h
  · intro rec h hnd
    have hchar := remove_user_warnings_some_user d u mod reason now rec h
    refine ⟨?_, ?_, ?_, ?_, ?_⟩
    · rw [hchar, foldl_removeUserStep_count mod reason now rec.warnings 0
        d.warnings hnd, List.countP_eq_length_filter]
      simp
    · intro wid hmem
      rw [hchar]
      exact foldl_removeUserStep_mem mod reason now rec.warnings 0 d.warnings wid
        hnd hmem
    · intro wid hmem
      rw [hchar]
      exact foldl_removeUserStep_not_mem mod reason now rec.warnings 0 d.warnings wid
        hmem
    · rw [hchar]
    · intro mod2 reason2 now2 hle
      have hu' : dlookup (DatabaseManager.remove_user_warnings d u mod reason
          now).2.users u = some rec := by
        rw [hchar]
        exact h
      rw [remove_user_warnings_some_user _ u mod2 reason2 now2 rec hu',
        foldl_removeUserStep_count mod2 reason2 now2 rec.warnings 0 _ hnd]
      simp only [Nat.zero_add]
      apply List.countP_eq_zero.mpr
      intro wid hmem
      have hl : dlookup (DatabaseManager.remove_user_warnings d u mod reason
          now).2.warnings wid
          = (dlookup d.warnings wid).map (fun w =>
              if now < w.expires_at ∧ w.removed = false
              then DatabaseManager.removalStamp w mod reason now else w) := by
        rw [hchar]
        exact foldl_removeUserStep_mem mod reason now rec.warnings 0 d.warnings wid
          hnd hmem
      cases hw : dlookup d.warnings wid with
      | none =>
        rw [hw] at hl
        simp only [Option.map_none'] at hl
        simp [activeAt_none _ now2 wid hl]
      | some w =>
        rw [hw] at hl
        by_cases hact : now < w.expires_at ∧ w.removed = false
        · have hsw : dlookup (DatabaseManager.remove_user_warnings d u mod reason
              now).2.warnings wid
              = some (DatabaseManager.removalStamp w mod reason now) := by
            rw [hl]
            simp [hact]
          rw [activeAt_some _ now2 wid _ hsw]
          simp [DatabaseManager.removalStamp]
        · have hsw : dlookup (DatabaseManager.remove_user_warnings d u mod reason
              now).2.warnings wid = some w := by
            rw [hl]
            simp [hact]
          rw [activeAt_some _ now2 wid _ hsw]
          by_cases h1 : w.removed = true
          · simp [h1]
          · have h2 : ¬ now < w.expires_at := fun hlt =>
              hact ⟨hlt, by simpa using h1⟩
            have h3 : ¬ now2 < w.expires_at := fun hlt =>
              h2 (lt_of_le_of_lt hle hlt)
            simp [h3]

/-- An active warning used by the C8 witness store. -/
def wActive (id : String) : Warning :=
  { id := id, user_id := 7, moderator_id := 9, violation_type := "NLR", points := 10,
    clips := [], reason := "r", timestamp := 0, expires_at := 100 }

/-- The C8 witness store: user 7 has warnings "1".."3" active at time 0 and
"4" already removed. -/
def dC8 : DbData :=
  { users := [(7, { total_points := 40, warnings := ["1", "2", "3", "4"], bans := [] })],
    warnings := [("1", wActive "1"), ("2", wActive "2"), ("3", wActive "3"),
      ("4", { wActive "4" with removed := true })],
    bans := [] }

/-- Witness for C8: sweeping user 7 removes the 3 active warnings, and an
immediate second sweep removes 0. -/
theorem remove_user_warnings_spec_witness :
    (DatabaseManager.remove_user_warnings dC8 7 9 "sweep" 0).1 = 3
    ∧ (DatabaseManager.remove_user_warnings
        (DatabaseManager.remove_user_warnings dC8 7 9 "sweep" 0).2
        7 8 "again" 0).1 = 0 := by
  have h := (remove_user_warnings_spec dC8 7 9 "sweep" 0).2
    { total_points := 40, warnings := ["1", "2", "3", "4"], bans := [] }
    (by rfl) (by decide)
  refine ⟨?_, h.2.2.2.2 8 "again" 0 le_rfl⟩
  rw [h.1]
  decide

/-! ## License-store lemmas (C2) -/

/-- The success branch of `add_license` (after the conflict check), named for
rewriting; definitionally equal to the inline branch. -/
def add_license_body (s : LicData) (user_id : Int) (license_key : String)
    (moderator_id : Int) (note : String) (now : Time) : LicData :=
  let license_users0 :=
    match dlookup s.user_licenses user_id with
    | some old_info =>
      if dcontains s.license_users old_info.license then
        derase s.license_users old_info.license
      else s.license_users
    | none => s.license_users
  let info : LicenseInfo := ⟨license_key, user_id, moderator_id, now, note⟩
  let hist : LicHistoryEntry :=
    { action := "add", user_id := user_id, license := license_key,
      moderator_id := moderator_id, timestamp := now, note := some note }
  { user_licenses := dinsert s.user_licenses user_id info,
    license_users := dinsert license_users0 license_key info,
    license_history := s.license_history ++ [hist] }

theorem add_license_conflict (s : LicData) (u : Int) (k : String) (m : Int)
    (note : String) (now : Time) (existing : LicenseInfo)
    (hk : dlookup s.license_users k = some existing) (hne : existing.user_id ≠ u) :
    LicenseManager.add_license s u k m note now = (false, s) := by
  unfold LicenseManager.add_license
  rw [hk]
  simp [hne]

theorem add_license_no_conflict (s : LicData) (u : Int) (k : String) (m : Int)
    (note : String) (now : Time)
    (h : ∀ existing, dlookup s.license_users k = some existing →
      existing.user_id = u) :
    LicenseManager.add_license s u k m note now =
      (true, add_license_body s u k m note now) := by
  unfold LicenseManager.add_license add_license_body
  cases hk : dlookup s.license_users k with
  | none => rfl
  | some existing =>
    have he : existing.user_id = u := h existing hk
    simp [he]

theorem add_license_body_user_licenses (s : LicData) (u : Int) (k : String)
    (m : Int) (note : String) (now : Time) :
    (add_license_body s u k m note now).user_licenses
      = dinsert s.user_licenses u ⟨k, u, m, now, note⟩ := rfl

theorem add_license_body_license_users_erase (s : LicData) (u : Int) (k : String)
    (m : Int) (note : String) (now : Time) (old : LicenseInfo)
    (hold : dlookup s.user_licenses u = some old)
    (hc : dcontains s.license_users old.license = true) :
    (add_license_body s u k m note now).license_users
      = dinsert (derase s.license_users old.license) k ⟨k, u, m, now, note⟩ := by
  unfold add_license_body
  rw [hold]
  simp [hc]

theorem add_license_body_license_users_keep (s : LicData) (u : Int) (k : String)
    (m : Int) (note : String) (now : Time) (old : LicenseInfo)
    (hold : dlookup s.user_licenses u = some old)
    (hc : dcontains s.license_users old.license = false) :
    (add_license_body s u k m note now).license_users
      = dinsert s.license_users k ⟨k, u, m, now, note⟩ := by
  unfold add_license_body
  rw [hold]
  simp [hc]

theorem add_license_body_license_users_nouser (s : LicData) (u : Int) (k : String)
    (m : Int) (note : String) (now : Time)
    (hold : dlookup s.user_licenses u = none) :
    (add_license_body s u k m note now).license_users
      = dinsert s.license_users k ⟨k, u, m, now, note⟩ := by
  unfold add_license_body
  rw [hold]

theorem remove_license_none (s : LicData) (u m : Int) (reason : String) (now : Time)
    (h : dlookup s.user_licenses u = none) :
    LicenseManager.remove_license s u m reason now = (false, s) := by
  unfold LicenseManager.remove_license
  rw [h]

theorem remove_license_some (s : LicData) (u m : Int) (reason : String) (now : Time)
    (info : LicenseInfo) (h : dlookup s.user_licenses u = some info) :
    LicenseManager.remove_license s u m reason now =
      (true,
        { user_licenses := derase s.user_licenses u,
          license_users :=
            if dcontains s.license_users info.license then
              derase s.license_users info.license
            else s.license_users,
          license_history := s.license_history ++
            [{ action := "remove", user_id := u, license := info.license,
               moderator_id := m, timestamp := now, reason := some reason }] }) := by
  unfold LicenseManager.remove_license
  rw [h]

/-- The synchronized one-to-one invariant of the two license indexes. -/
def LicInv (s : LicData) : Prop :=
  (∀ u info, dlookup s.user_licenses u = some info →
      info.user_id = u ∧ dlookup s.license_users info.license = some info)
  ∧ (∀ k info, dlookup s.license_users k = some info →
      info.license = k ∧ dlookup s.user_licenses info.user_id = some info)

theorem licInv_empty : LicInv emptyLic := by
  constructor <;> intro a info h <;> cases h

theorem licInv_add (s : LicData) (u : Int) (k : String) (m : Int) (note : String)
    (now : Time) (hinv : LicInv s) :
    LicInv (LicenseManager.add_license s u k m note now).2 := by
  by_cases hconf : ∃ existing, dlookup s.license_users k = some existing
      ∧ existing.user_id ≠ u
  · obtain ⟨existing, hk, hne⟩ := hconf
    rw [add_license_conflict s u k m note now existing hk hne]
    exact hinv
  · have hfree : ∀ existing, dlookup s.license_users k = some existing →
        existing.user_id = u := by
      intro existing hk
      by_contra hne
      exact hconf ⟨existing, hk, hne⟩
    rw [add_license_no_conflict s u k m note now hfree]
    show LicInv (add_license_body s u k m note now)
    -- a description of the freed reverse index
    have hR0 : ∃ R0, (add_license_body s u k m note now).license_users
        = dinsert R0 k ⟨k, u, m, now, note⟩
        ∧ (∀ k', dlookup R0 k' = none ∨ dlookup R0 k' = dlookup s.license_users k')
        ∧ (∀ old, dlookup s.user_licenses u = some old →
            dlookup R0 old.license = none)
        ∧ (dlookup s.user_licenses u = none →
            ∀ k', dlookup R0 k' = dlookup s.license_users k') := by
      cases hold : dlookup s.user_licenses u with
      | none =>
        refine ⟨s.license_users,
          add_license_body_license_users_nouser s u k m note now hold,
          fun k' => Or.inr rfl, ?_, fun _ k' => rfl⟩
        intro old h
        cases h
      | some old =>
        cases hc : dcontains s.license_users old.license with
        | true =>
          refine ⟨derase s.license_users old.license,
            add_license_body_license_users_erase s u k m note now old hold hc, ?_, ?_, ?_⟩
          · intro k'
            by_cases hk' : k' = old.license
            · subst hk'
              exact Or.inl (dlookup_derase_self _ _)
            · exact Or.inr (dlookup_derase_ne _ _ _ hk')
          · intro old' h
            cases h
            exact dlookup_derase_self _ _
          · intro h
            cases h
        | false =>
          refine ⟨s.license_users,
            add_license_body_license_users_keep s u k m note now old hold hc, ?_, ?_, ?_⟩
          · exact fun k' => Or.inr rfl
          · intro old' h
            cases h
            exact Option.not_isSome_iff_eq_none.mp (by simpa [dcontains] using hc)
          · intro h
            cases h
    obtain ⟨R0, hRe, hRsub, hRold, _hRnone⟩ := hR0
    constructor
    · intro u' info' hu'
      rw [add_license_body_user_licenses] at hu'
      by_cases huu : u' = u
      · subst huu
        rw [dlookup_dinsert_self] at hu'
        cases hu'
        refine ⟨rfl, ?_⟩
        rw [hRe]
        exact dlookup_dinsert_self _ _ _
      · rw [dlookup_dinsert_ne _ _ _ _ huu] at hu'
        obtain ⟨hid, hrev⟩ := hinv.1 u' info' hu'
        refine ⟨hid, ?_⟩
        rw [hRe]
        have hlk : info'.license ≠ k := by
          intro hlk
          rw [hlk] at hrev
          have := hfree info' hrev
          exact huu (by rw [← hid, this])
        rw [dlookup_dinsert_ne _ _ _ _ hlk]
        rcases hRsub info'.license with hnone | heq
        · exfalso
          cases holdu : dlookup s.user_licenses u with
          | none =>
            rw [_hRnone holdu info'.license] at hnone
            rw [hrev] at hnone
            cases hnone
          | some old =>
            -- R0 is s.license_users minus old.license
            by_cases hsame : info'.license = old.license
            · -- then info' = old via the reverse index, so u' = u
              have h2 := hinv.1 u old holdu
              rw [← hsame] at h2
              rw [hrev] at h2
              cases h2.2
              exact huu (by rw [← hid, h2.1])
            · -- lookup in R0 agrees with s.license_users there
              cases hc : dcontains s.license_users old.license with
              | true =>
                have : (add_license_body s u k m note now).license_users
                    = dinsert (derase s.license_users old.license) k
                      ⟨k, u, m, now, note⟩ :=
                  add_license_body_license_users_erase s u k m note now old holdu hc
                rw [hRe] at this
                -- both dinserts over R0 and derase agree; compare lookups directly
                have hlook := congrArg (fun t => dlookup t info'.license) this
                simp only at hlook
                rw [dlookup_dinsert_ne _ _ _ _ hlk,
                  dlookup_dinsert_ne _ _ _ _ hlk] at hlook
                rw [hlook, dlookup_derase_ne _ _ _ hsame, hrev] at hnone
                cases hnone
              | false =>
                have : (add_license_body s u k m note now).license_users
                    = dinsert s.license_users k ⟨k, u, m, now, note⟩ :=
                  add_license_body_license_users_keep s u k m note now old holdu hc
                rw [hRe] at this
                have hlook := congrArg (fun t => dlookup t info'.license) this
                simp only at hlook
                rw [dlookup_dinsert_ne _ _ _ _ hlk,
                  dlookup_dinsert_ne _ _ _ _ hlk] at hlook
                rw [hlook, hrev] at hnone
                cases hnone
        · rw [heq]
          exact hrev
    · intro k' info' hk'
      rw [hRe] at hk'
      by_cases hkk : k' = k
      · subst hkk
        rw [dlookup_dinsert_self] at hk'
        cases hk'
        refine ⟨rfl, ?_⟩
        rw [add_license_body_user_licenses]
        exact dlookup_dinsert_self _ _ _
      · rw [dlookup_dinsert_ne _ _ _ _ hkk] at hk'
        have hks : dlookup s.license_users k' = some info' := by
          rcases hRsub k' with hnone | heq
          · rw [hnone] at hk'
            cases hk'
          · rw [← heq]
            exact hk'
        obtain ⟨hlic, hfwd⟩ := hinv.2 k' info' hks
        refine ⟨hlic, ?_⟩
        rw [add_license_body_user_licenses]
        have huu : info'.user_id ≠ u := by
          intro huu
          rw [huu] at hfwd
          have hdead := hRold info' hfwd
          rw [hlic] at hdead
          rw [hdead] at hk'
          cases hk'
        rw [dlookup_dinsert_ne _ _ _ _ huu]
        exact hfwd

theorem remove_license_some_proj (s : LicData) (u m : Int) (reason : String)
    (now : Time) (info : LicenseInfo) (h : dlookup s.user_licenses u = some info) :
    (LicenseManager.remove_license s u m reason now).1 = true
    ∧ (LicenseManager.remove_license s u m reason now).2.user_licenses
        = derase s.user_licenses u
    ∧ (LicenseManager.remove_license s u m reason now).2.license_users
        = (if dcontains s.license_users info.license then
            derase s.license_users info.license
          else s.license_users) := by
  rw [remove_license_some s u m reason now info h]
  exact ⟨rfl, rfl, rfl⟩

theorem licInv_remove (s : LicData) (u m : Int) (reason : String) (now : Time)
    (hinv : LicInv s) :
    LicInv (LicenseManager.remove_license s u m reason now).2 := by
  cases hu : dlookup s.user_licenses u with
  | none =>
    rw [remove_license_none s u m reason now hu]
    exact hinv
  | some info =>
    obtain ⟨-, hLs, hRs⟩ := remove_license_some_proj s u m reason now info hu
    obtain ⟨hid, hrev⟩ := hinv.1 u info hu
    have hR' : ∀ k', dlookup (LicenseManager.remove_license s u m reason
        now).2.license_users k'
        = if k' = info.license then none else dlookup s.license_users k' := by
      intro k'
      rw [hRs]
      by_cases hc : dcontains s.license_users info.license = true
      · rw [if_pos hc]
        by_cases hkk : k' = info.license
        · subst hkk
          rw [dlookup_derase_self, if_pos rfl]
        · rw [dlookup_derase_ne _ _ _ hkk, if_neg hkk]
      · rw [if_neg hc]
        by_cases hkk : k' = info.license
        · subst hkk
          rw [if_pos rfl]
          exact Option.not_isSome_iff_eq_none.mp (by simpa [dcontains] using hc)
        · rw [if_neg hkk]
    constructor
    · intro u' info' hu'
      rw [hLs] at hu'
      have huu : u' ≠ u := by
        intro h
        subst h
        rw [dlookup_derase_self] at hu'
        cases hu'
      rw [dlookup_derase_ne _ _ _ huu] at hu'
      obtain ⟨hid', hrev'⟩ := hinv.1 u' info' hu'
      refine ⟨hid', ?_⟩
      rw [hR' info'.license]
      have hne : info'.license ≠ info.license := by
        intro he
        rw [he] at hrev'
        have := hrev.symm.trans hrev'
        cases this
        exact huu (by rw [← hid', hid])
      rw [if_neg hne]
      exact hrev'
    · intro k' info' hk'
      rw [hR' k'] at hk'
      by_cases hkk : k' = info.license
      · rw [if_pos hkk] at hk'
        cases hk'
      · rw [if_neg hkk] at hk'
        obtain ⟨hlic', hfwd'⟩ := hinv.2 k' info' hk'
        refine ⟨hlic', ?_⟩
        have huu : info'.user_id ≠ u := by
          intro he
          rw [he] at hfwd'
          have := hu.symm.trans hfwd'
          cases this
          exact hkk hlic'.symm
        rw [hLs, dlookup_derase_ne _ _ _ huu]
        exact hfwd'

theorem licInv_reachable (s : LicData) (h : LicReachable s) : LicInv s := by
  induction h with
  | refl => exact licInv_empty
  | tail _hab hbc ih =>
    cases hbc with
    | add user_id license_key moderator_id note now =>
      exact licInv_add _ user_id license_key moderator_id note now ih
    | remove user_id moderator_id reason now =>
      exact licInv_remove _ user_id moderator_id reason now ih

/-- C2: in every reachable license store the two indexes form a synchronized
one-to-one mapping (each user holds at most one key and each key at most one
user, the dictionaries being single-valued); adding a key held by a
different user fails and leaves the store unchanged; re-licensing a user
frees the old key before binding the new one. -/
theorem license_one_to_one (s : LicData) (hr : LicReachable s) :
    (∀ u k, (dlookup s.user_licenses u).map LicenseInfo.license = some k ↔
        (dlookup s.license_users k).map LicenseInfo.user_id = some u)
    ∧ (∀ u1 u2 k m note now, u1 ≠ u2 →
        (dlookup s.license_users k).map LicenseInfo.user_id = some u1 →
        LicenseManager.add_license s u2 k m note now = (false, s))
    ∧ (∀ u oldk newk m note now old,
        dlookup s.user_licenses u = some old → old.license = oldk → newk ≠ oldk →
        (∀ ex, dlookup s.license_users newk = some ex → ex.user_id = u) →
        (LicenseManager.add_license s u newk m note now).1 = true
        ∧ dlookup (LicenseManager.add_license s u newk m note
            now).2.license_users oldk = none
        ∧ (dlookup (LicenseManager.add_license s u newk m note
            now).2.user_licenses u).map LicenseInfo.license = some newk
        ∧ (dlookup (LicenseManager.add_license s u newk m note
            now).2.license_users newk).map LicenseInfo.user_id = some u) := by
  have hinv := licInv_reachable s hr
  refine ⟨?_, ?_, ?_⟩
  · intro u k
    constructor
    · intro h
      cases hl : dlookup s.user_licenses u with
      | none => rw [hl] at h; cases h
      | some info =>
        rw [hl] at h
        simp only [Option.map_some'] at h
        cases h
        obtain ⟨hid, hrev⟩ := hinv.1 u info hl
        rw [hrev]
        simp [hid]
    · intro h
      cases hl : dlookup s.license_users k with
      | none => rw [hl] at h; cases h
      | some info =>
        rw [hl] at h
        simp only [Option.map_some'] at h
        cases h
        obtain ⟨hlic, hfwd⟩ := hinv.2 k info hl
        rw [hfwd]
        simp [hlic]
  · intro u1 u2 k m note now hne hmap
    cases hk : dlookup s.license_users k with
    | none => rw [hk] at hmap; cases hmap
    | some ex =>
      rw [hk] at hmap
      simp only [Option.map_some'] at hmap
      cases hmap
      exact add_license_conflict s u2 k m note now ex hk hne
  · intro u oldk newk m note now old hold hk hne hfree
    rw [add_license_no_conflict s u newk m note now hfree]
    refine ⟨rfl, ?_, ?_, ?_⟩
    · show dlookup (add_license_body s u newk m note now).license_users oldk = none
      cases hc : dcontains s.license_users old.license with
      | true =>
        rw [add_license_body_license_users_erase s u newk m note now old hold hc,
          dlookup_dinsert_ne _ _ _ _ (Ne.symm hne)]
        rw [← hk]
        exact dlookup_derase_self _ _
      | false =>
        rw [add_license_body_license_users_keep s u newk m note now old hold hc,
          dlookup_dinsert_ne _ _ _ _ (Ne.symm hne)]
        rw [← hk]
        exact Option.not_isSome_iff_eq_none.mp (by simpa [dcontains] using hc)
    · show (dlookup (add_license_body s u newk m note now).user_licenses u).map
        LicenseInfo.license = some newk
      rw [add_license_body_user_licenses, dlookup_dinsert_self]
      rfl
    · show (dlookup (add_license_body s u newk m note now).license_users newk).map
        LicenseInfo.user_id = some u
      cases hc : dcontains s.license_users old.license with
      | true =>
        rw [add_license_body_license_users_erase s u newk m note now old hold hc,
          dlookup_dinsert_self]
        rfl
      | false =>
        rw [add_license_body_license_users_keep s u newk m note now old hold hc,
          dlookup_dinsert_self]
        rfl

/-- The one-user license store backing the C2 witness. -/
def sLic : LicData := (LicenseManager.add_license emptyLic 1 "aaa" 9 "" 0).2

theorem sLic_reachable : LicReachable sLic :=
  Relation.ReflTransGen.single (LicStep.add emptyLic 1 "aaa" 9 "" 0)

/-- Witness for C2: with key "aaa" held by user 1, user 2 cannot take "aaa";
re-licensing user 1 to "bbb" frees "aaa" and binds "bbb". -/
theorem license_one_to_one_witness :
    LicenseManager.add_license sLic 2 "aaa" 8 "" 5 = (false, sLic)
    ∧ (LicenseManager.add_license sLic 1 "bbb" 8 "" 5).1 = true
    ∧ dlookup (LicenseManager.add_license sLic 1 "bbb" 8 "" 5).2.license_users "aaa"
        = none
    ∧ (dlookup (LicenseManager.add_license sLic 1 "bbb" 8 "" 5).2.user_licenses
        1).map LicenseInfo.license = some "bbb" := by
  have h := license_one_to_one sLic sLic_reachable
  have hc := h.2.2 1 "aaa" "bbb" 8 "" 5 ⟨"aaa", 1, 9, 0, ""⟩ (by rfl) rfl
    (by decide) (fun ex hex => by cases hex)
  exact ⟨h.2.1 1 2 "aaa" 8 "" 5 (by decide) (by rfl), hc.1, hc.2.1, hc.2.2.1⟩

/-! ## Warning-id allocation lemmas (C5) -/

theorem maxIdStep_none (a : Nat) (p : String × Warning) (h : strToNatOpt p.1 = none) :
    DatabaseManager.maxIdStep a p = a := by
  unfold DatabaseManager.maxIdStep
  rw [h]

theorem maxIdStep_some (a : Nat) (p : String × Warning) (n : Nat)
    (h : strToNatOpt p.1 = some n) : DatabaseManager.maxIdStep a p = max a n := by
  unfold DatabaseManager.maxIdStep
  rw [h]

theorem le_foldl_maxIdStep (ws : List (String × Warning)) :
    ∀ a : Nat, a ≤ ws.foldl DatabaseManager.maxIdStep a := by
  induction ws with
  | nil => intro a; exact le_refl a
  | cons p ws ih =>
    intro a
    rw [List.foldl_cons]
    refine le_trans ?_ (ih _)
    cases h : strToNatOpt p.1 with
    | none => rw [maxIdStep_none a p h]
    | some n => rw [maxIdStep_some a p n h]; exact Nat.le_max_left a n

theorem foldl_maxIdStep_mem (ws : List (String × Warning)) (p : String × Warning)
    (n : Nat) (a : Nat) (hmem : p ∈ ws) (hp : strToNatOpt p.1 = some n) :
    n ≤ ws.foldl DatabaseManager.maxIdStep a := by
  induction ws generalizing a with
  | nil => simp at hmem
  | cons q ws ih =>
    rw [List.foldl_cons]
    rcases List.mem_cons.mp hmem with h | h
    · subst h
      refine le_trans ?_ (le_foldl_maxIdStep ws _)
      rw [maxIdStep_some a p n hp]
      exact Nat.le_max_right a n
    · exact ih _ h

theorem foldl_maxIdStep_le (ws : List (String × Warning)) :
    ∀ (a m : Nat), a ≤ m →
    (∀ p, p ∈ ws → ∀ n, strToNatOpt p.1 = some n → n ≤ m) →
    ws.foldl DatabaseManager.maxIdStep a ≤ m := by
  induction ws with
  | nil => intro a m ha _; exact ha
  | cons p ws ih =>
    intro a m ha h
    rw [List.foldl_cons]
    refine ih _ m ?_ (fun q hq => h q (List.mem_cons_of_mem _ hq))
    cases hp : strToNatOpt p.1 with
    | none => rw [maxIdStep_none a p hp]; exact ha
    | some n =>
      rw [maxIdStep_some a p n hp]
      exact max_le ha (h p (List.mem_cons_self _ _) n hp)

theorem isSome_dlookup_of_mem {κ α : Type} [DecidableEq κ] {m : List (κ × α)}
    {p : κ × α} (h : p ∈ m) : (dlookup m p.1).isSome := by
  unfold dlookup
  cases hf : m.find? (fun q => decide (q.1 = p.1)) with
  | none =>
    have := List.find?_eq_none.mp hf p h
    simp at this
  | some q => rfl

/-- The freshly allocated id is distinct from every stored warning id. -/
theorem fresh_warning_id (d : DbData) (k : String)
    (h : (dlookup d.warnings k).isSome) :
    k ≠ DatabaseManager.get_next_warning_id d := by
  obtain ⟨w, hw⟩ := Option.isSome_iff_exists.mp h
  intro he
  have hparse : strToNatOpt k = some (DatabaseManager.maxWarningId d.warnings + 1) := by
    rw [he]
    exact strToNatOpt_natToString _
  have hle := foldl_maxIdStep_mem d.warnings (k, w) _ 0
    (mem_of_dlookup_eq_some hw) hparse
  have : DatabaseManager.maxWarningId d.warnings + 1
      ≤ DatabaseManager.maxWarningId d.warnings := hle
  omega

/-! Projection facts for each mutating operation. -/

theorem add_warning_fst (d : DbData) (u m : Int) (v : String) (p : Int)
    (c : List String) (r : String) (t : Time) :
    (DatabaseManager.add_warning d u m v p c r t).1 =
      { id := DatabaseManager.get_next_warning_id d, user_id := u,
        moderator_id := m, violation_type := v, points := p, clips := c,
        reason := r, timestamp := t,
        expires_at := DatabaseManager.calculate_expiry v t } := rfl

theorem add_warning_snd_warnings (d : DbData) (u m : Int) (v : String) (p : Int)
    (c : List String) (r : String) (t : Time) :
    (DatabaseManager.add_warning d u m v p c r t).2.warnings
      = dinsert d.warnings (DatabaseManager.get_next_warning_id d)
          (DatabaseManager.add_warning d u m v p c r t).1 := rfl

theorem add_warning_snd_bans (d : DbData) (u m : Int) (v : String) (p : Int)
    (c : List String) (r : String) (t : Time) :
    (DatabaseManager.add_warning d u m v p c r t).2.bans = d.bans := rfl

theorem remove_warning_not_found (d : DbData) (wid : String) (m : Int)
    (reason : String) (t : Time) (h : dcontains d.warnings wid = false) :
    DatabaseManager.remove_warning d wid m reason t = (false, d) := by
  unfold DatabaseManager.remove_warning
  rw [h]
  rfl

theorem remove_warning_found (d : DbData) (wid : String) (m : Int)
    (reason : String) (t : Time) (h : dcontains d.warnings wid = true) :
    DatabaseManager.remove_warning d wid m reason t =
      (true, { d with warnings := dmodify d.warnings wid (fun w => DatabaseManager.removalStamp w m reason t) }) := by
  unfold DatabaseManager.remove_warning
  rw [h]
  rfl

theorem remove_warning_users (d : DbData) (wid : String) (m : Int)
    (reason : String) (t : Time) :
    (DatabaseManager.remove_warning d wid m reason t).2.users = d.users := by
  cases hc : dcontains d.warnings wid with
  | true => rw [remove_warning_found d wid m reason t hc]
  | false => rw [remove_warning_not_found d wid m reason t hc]

theorem remove_user_warnings_users (d : DbData) (u m : Int) (reason : String)
    (t : Time) :
    (DatabaseManager.remove_user_warnings d u m reason t).2.users = d.users := by
  cases hu : dlookup d.users u with
  | none => rw [remove_user_warnings_none_user d u m reason t hu]
  | some rec => rw [remove_user_warnings_some_user d u m reason t rec hu]

theorem add_ban_request_state (d : DbData) (u tp : Int) (a : String) (mid : Int)
    (t : Time) :
    (DatabaseManager.add_ban_request d u tp a mid t).2.users = d.users
    ∧ (DatabaseManager.add_ban_request d u tp a mid t).2.warnings = d.warnings :=
  ⟨rfl, rfl⟩

theorem complete_ban_request_state (d : DbData) (mid modid : Int) (t : Time) :
    (DatabaseManager.complete_ban_request d mid modid t).2.users = d.users
    ∧ (DatabaseManager.complete_ban_request d mid modid t).2.warnings = d.warnings := by
  unfold DatabaseManager.complete_ban_request
  cases hb : dlookup d.bans mid with
  | none => exact ⟨rfl, rfl⟩
  | some b => exact ⟨rfl, rfl⟩

/-- The sweep loop changes no warning's points (it only stamps removal
fields), so lookups agree up to the points projection. -/
theorem foldl_removeUserStep_points (mod : Int) (reason : String) (now : Time)
    (ids : List String) :
    ∀ (c : Nat) (ws : List (String × Warning)) (k : String),
    (dlookup (ids.foldl (DatabaseManager.removeUserStep mod reason now) (c, ws)).2 k).map
        Warning.points
      = (dlookup ws k).map Warning.points := by
  induction ids with
  | nil => intro c ws k; rfl
  | cons i ids ih =>
    intro c ws k
    rw [List.foldl_cons]
    cases hw : dlookup ws i with
    | none =>
      rw [removeUserStep_pair_none mod reason now c ws i hw]
      exact ih c ws k
    | some w =>
      rw [removeUserStep_pair_some mod reason now c ws i w hw]
      by_cases hact : now < w.expires_at ∧ w.removed = false
      · rw [if_pos hact, ih _ _ k]
        by_cases hk : k = i
        · subst hk
          rw [dlookup_dmodify_self, hw]
          rfl
        · rw [dlookup_dmodify_ne _ _ _ _ hk]
      · rw [if_neg hact]
        exact ih c ws k

/-- One persisted step never deletes a warning key. -/
theorem dbStep_warnings_isSome (d d' : DbData) (h : DbStep d d') (k : String)
    (hk : (dlookup d.warnings k).isSome) : (dlookup d'.warnings k).isSome := by
  cases h with
  | add u m v p c r t =>
    rw [add_warning_snd_warnings]
    exact isSome_dlookup_dinsert _ _ _ _ hk
  | remove wid m reason t =>
    cases hc : dcontains d.warnings wid with
    | true =>
      rw [remove_warning_found d wid m reason t hc]
      show (dlookup (dmodify d.warnings wid
        (fun w => DatabaseManager.removalStamp w m reason t)) k).isSome
      exact isSome_dlookup_dmodify _ _ _ _ hk
    | false =>
      rw [remove_warning_not_found d wid m reason t hc]
      exact hk
  | removeUser u m reason t =>
    cases hu : dlookup d.users u with
    | none =>
      rw [remove_user_warnings_none_user d u m reason t hu]
      exact hk
    | some rec =>
      rw [remove_user_warnings_some_user d u m reason t rec hu]
      show (dlookup (rec.warnings.foldl (DatabaseManager.removeUserStep m reason t)
        (0, d.warnings)).2 k).isSome
      have hpts := foldl_removeUserStep_points m reason t rec.warnings 0 d.warnings k
      cases hL : dlookup (rec.warnings.foldl
          (DatabaseManager.removeUserStep m reason t) (0, d.warnings)).2 k with
      | some w => rfl
      | none =>
        rw [hL] at hpts
        cases hR : dlookup d.warnings k with
        | none =>
          rw [hR] at hk
          simp at hk
        | some w =>
          rw [hR] at hpts
          simp at hpts
  | addBan u tp a mid t =>
    rw [(add_ban_request_state d u tp a mid t).2]
    exact hk
  | completeBan mid modid t =>
    rw [(complete_ban_request_state d mid modid t).2]
    exact hk

/-- Along any run, warning keys are never deleted. -/
theorem dbFrom_warnings_isSome (d d' : DbData) (h : DbFrom d d') (k : String)
    (hk : (dlookup d.warnings k).isSome) : (dlookup d'.warnings k).isSome := by
  induction h with
  | refl => exact hk
  | tail _hab hbc ih => exact dbStep_warnings_isSome _ _ hbc k ih

/-- The maximum numeric id never decreases along a run. -/
theorem maxWarningId_mono (d d' : DbData) (h : DbFrom d d') :
    DatabaseManager.maxWarningId d.warnings
      ≤ DatabaseManager.maxWarningId d'.warnings := by
  apply foldl_maxIdStep_le d.warnings 0 _ (Nat.zero_le _)
  intro p hp n hn
  have h1 : (dlookup d.warnings p.1).isSome := isSome_dlookup_of_mem hp
  have h2 := dbFrom_warnings_isSome d d' h p.1 h1
  obtain ⟨w', hw'⟩ := Option.isSome_iff_exists.mp h2
  exact foldl_maxIdStep_mem d'.warnings (p.1, w') n 0 (mem_of_dlookup_eq_some hw') hn

/-- C5: `issueWarning` allocates id `str(max existing purely-numeric id + 1)`
(ids that are not pure decimal digit strings are ignored by the maximum);
across any later sequence of operations (removals included) a newly
allocated id is numerically strictly larger than an earlier one and never
equal to any stored id. -/
theorem warning_ids_spec (d d₂ : DbData) (u₁ m₁ : Int) (v₁ : String) (p₁ : Int)
    (c₁ : List String) (r₁ : String) (t₁ : Time) (u₂ m₂ : Int) (v₂ : String)
    (p₂ : Int) (c₂ : List String) (r₂ : String) (t₂ : Time)
    (h : DbFrom (DatabaseManager.add_warning d u₁ m₁ v₁ p₁ c₁ r₁ t₁).2 d₂) :
    (DatabaseManager.add_warning d u₁ m₁ v₁ p₁ c₁ r₁ t₁).1.id
        = natToString (DatabaseManager.maxWarningId d.warnings + 1)
    ∧ (DatabaseManager.add_warning d₂ u₂ m₂ v₂ p₂ c₂ r₂ t₂).1.id
        = natToString (DatabaseManager.maxWarningId d₂.warnings + 1)
    ∧ (∀ n₁ n₂,
        strToNatOpt (DatabaseManager.add_warning d u₁ m₁ v₁ p₁ c₁ r₁ t₁).1.id
          = some n₁ →
        strToNatOpt (DatabaseManager.add_warning d₂ u₂ m₂ v₂ p₂ c₂ r₂ t₂).1.id
          = some n₂ →
        n₁ < n₂)
    ∧ (∀ k, (dlookup d₂.warnings k).isSome →
        k ≠ (DatabaseManager.add_warning d₂ u₂ m₂ v₂ p₂ c₂ r₂ t₂).1.id) := by
  have hid1 : (DatabaseManager.add_warning d u₁ m₁ v₁ p₁ c₁ r₁ t₁).1.id
      = natToString (DatabaseManager.maxWarningId d.warnings + 1) := rfl
  have hid2 : (DatabaseManager.add_warning d₂ u₂ m₂ v₂ p₂ c₂ r₂ t₂).1.id
      = natToString (DatabaseManager.maxWarningId d₂.warnings + 1) := rfl
  refine ⟨hid1, hid2, ?_, ?_⟩
  · intro n₁ n₂ h1 h2
    rw [hid1, strToNatOpt_natToString] at h1
    rw [hid2, strToNatOpt_natToString] at h2
    cases h1
    cases h2
    have hkey : (dlookup
        (DatabaseManager.add_warning d u₁ m₁ v₁ p₁ c₁ r₁ t₁).2.warnings
        (natToString (DatabaseManager.maxWarningId d.warnings + 1))).isSome := by
      rw [add_warning_snd_warnings]
      have he : natToString (DatabaseManager.maxWarningId d.warnings + 1)
          = DatabaseManager.get_next_warning_id d := rfl
      rw [he, dlookup_dinsert_self]
      rfl
    have hkey2 := dbFrom_warnings_isSome _ _ h _ hkey
    obtain ⟨w', hw'⟩ := Option.isSome_iff_exists.mp hkey2
    have hle : DatabaseManager.maxWarningId d.warnings + 1
        ≤ DatabaseManager.maxWarningId d₂.warnings :=
      foldl_maxIdStep_mem d₂.warnings
        (natToString (DatabaseManager.maxWarningId d.warnings + 1), w') _ 0
        (mem_of_dlookup_eq_some hw') (strToNatOpt_natToString _)
    omega
  · intro k hk
    rw [hid2]
    exact fresh_warning_id d₂ k hk

/-- First C5 witness state: one warning issued on the empty store. -/
def dC5a : DbData := (DatabaseManager.add_warning emptyDb 7 9 "NLR" 10 [] "r" 0).2

/-- Second C5 witness state: that warning removed again. -/
def dC5b : DbData := (DatabaseManager.remove_warning dC5a "1" 9 "r" 1).2

/-- Witness for C5: the first id is "1"; after removing it, the next id is
"2" (not a reuse of "1") and 1 < 2. -/
theorem warning_ids_spec_witness :
    (DatabaseManager.add_warning emptyDb 7 9 "NLR" 10 [] "r" 0).1.id = "1"
    ∧ (DatabaseManager.add_warning dC5b 7 9 "NLR" 10 [] "r" 2).1.id = "2"
    ∧ (1 : Nat) < 2
    ∧ "1" ≠ (DatabaseManager.add_warning dC5b 7 9 "NLR" 10 [] "r" 2).1.id := by
  have h := warning_ids_spec emptyDb dC5b 7 9 "NLR" 10 [] "r" 0 7 9 "NLR" 10 [] "r" 2
    (Relation.ReflTransGen.single (DbStep.remove dC5a "1" 9 "r" 1))
  refine ⟨?_, ?_, h.2.2.1 1 2 (by decide) (by decide), h.2.2.2 "1" (by decide)⟩
  · rw [h.1]
    decide
  · rw [h.2.1]
    decide

/-! ## Stored total_points invariant (C10) -/

/-- Sum of the stored points of every warning ever issued to this user
(warnings are never physically deleted, so the user's id list enumerates
all of them). -/
def userIssuedSum (d : DbData) (rec : UserRec) : Int :=
  (rec.warnings.filterMap (fun wid =>
    (dlookup d.warnings wid).map Warning.points)).sum

/-- Invariant carried over reachable stores: every referenced warning id is
present, and the stored counter equals the all-time issued sum. -/
def UsersInv (d : DbData) : Prop :=
  ∀ u rec, dlookup d.users u = some rec →
    (∀ wid, wid ∈ rec.warnings → (dlookup d.warnings wid).isSome)
    ∧ rec.total_points = userIssuedSum d rec

theorem usersInv_empty : UsersInv emptyDb := by
  intro u rec h
  simp [emptyDb, dlookup] at h

theorem filterMap_congr_mem {α β : Type} (l : List α) (f g : α → Option β)
    (h : ∀ a, a ∈ l → f a = g a) : l.filterMap f = l.filterMap g := by
  induction l with
  | nil => rfl
  | cons a l ih =>
    have hg := h a (List.mem_cons_self _ _)
    cases hfa : f a with
    | none =>
      rw [List.filterMap_cons_none hfa, List.filterMap_cons_none (hg ▸ hfa),
        ih (fun b hb => h b (List.mem_cons_of_mem _ hb))]
    | some b =>
      rw [List.filterMap_cons_some hfa, List.filterMap_cons_some (hg ▸ hfa),
        ih (fun b hb => h b (List.mem_cons_of_mem _ hb))]

theorem userIssuedSum_eq (d d' : DbData) (rec : UserRec)
    (h : ∀ wid, wid ∈ rec.warnings →
      (dlookup d'.warnings wid).map Warning.points
        = (dlookup d.warnings wid).map Warning.points) :
    userIssuedSum d' rec = userIssuedSum d rec := by
  unfold userIssuedSum
  exact congrArg List.sum (filterMap_congr_mem _ _ _ h)

theorem isSome_of_map_points_eq {o1 o2 : Option Warning}
    (h : o1.map Warning.points = o2.map Warning.points) (h2 : o2.isSome) :
    o1.isSome := by
  cases o1 with
  | some w => rfl
  | none =>
    cases o2 with
    | none => simp at h2
    | some w => simp at h

theorem sum_points_filter_le (l : List Warning) (p : Warning → Bool)
    (hnn : ∀ w, w ∈ l → 0 ≤ w.points) :
    ((l.filter p).map Warning.points).sum ≤ (l.map Warning.points).sum := by
  induction l with
  | nil => exact le_refl _
  | cons a l ih =>
    have ih2 := ih (fun w hw => hnn w (List.mem_cons_of_mem _ hw))
    rw [List.filter_cons, List.map_cons, List.sum_cons]
    by_cases hp : p a = true
    · rw [if_pos hp, List.map_cons, List.sum_cons]
      exact add_le_add_left ih2 _
    · rw [if_neg hp]
      refine le_trans ih2 ?_
      have := hnn a (List.mem_cons_self _ _)
      omega

theorem sum_points_filter_lt (l : List Warning) (p : Warning → Bool)
    (hnn : ∀ w, w ∈ l → 0 ≤ w.points)
    (hex : ∃ w, w ∈ l ∧ p w = false ∧ 0 < w.points) :
    ((l.filter p).map Warning.points).sum < (l.map Warning.points).sum := by
  induction l with
  | nil =>
    obtain ⟨w, hw, -, -⟩ := hex
    simp at hw
  | cons a l ih =>
    have hnn2 : ∀ w, w ∈ l → 0 ≤ w.points :=
      fun w hw => hnn w (List.mem_cons_of_mem _ hw)
    obtain ⟨w, hw, hpw, hpts⟩ := hex
    rw [List.filter_cons, List.map_cons, List.sum_cons]
    rcases List.mem_cons.mp hw with heq | hwl
    · subst heq
      rw [if_neg (by simp [hpw])]
      have hle := sum_points_filter_le l p hnn2
      omega
    · by_cases hp : p a = true
      · rw [if_pos hp, List.map_cons, List.sum_cons]
        have := ih hnn2 ⟨w, hwl, hpw, hpts⟩
        omega
      · rw [if_neg hp]
        have := ih hnn2 ⟨w, hwl, hpw, hpts⟩
        have h2 := hnn a (List.mem_cons_self _ _)
        omega

theorem add_warning_users_present (d : DbData) (u m : Int) (v : String) (p : Int)
    (c : List String) (r : String) (t : Time) (rec : UserRec)
    (h : dlookup d.users u = some rec) :
    (DatabaseManager.add_warning d u m v p c r t).2.users
      = dmodify d.users u (fun rec =>
          { rec with
              warnings := rec.warnings ++ [DatabaseManager.get_next_warning_id d],
              total_points := rec.total_points + p }) := by
  unfold DatabaseManager.add_warning
  have hc : dcontains d.users u = true := by simp [dcontains, h]
  rw [hc]
  rfl

theorem add_warning_users_absent (d : DbData) (u m : Int) (v : String) (p : Int)
    (c : List String) (r : String) (t : Time)
    (h : dlookup d.users u = none) :
    (DatabaseManager.add_warning d u m v p c r t).2.users
      = dmodify (dinsert d.users u ⟨0, [], []⟩) u (fun rec =>
          { rec with
              warnings := rec.warnings ++ [DatabaseManager.get_next_warning_id d],
              total_points := rec.total_points + p }) := by
  unfold DatabaseManager.add_warning
  have hc : dcontains d.users u = false := by simp [dcontains, h]
  rw [hc]
  rfl

theorem usersInv_add (d : DbData) (u m : Int) (v : String) (p : Int)
    (c : List String) (r : String) (t : Time) (hinv : UsersInv d) :
    UsersInv (DatabaseManager.add_warning d u m v p c r t).2 := by
  have hwmap : ∀ k, (dlookup d.warnings k).isSome →
      dlookup (DatabaseManager.add_warning d u m v p c r t).2.warnings k
        = dlookup d.warnings k := by
    intro k hk
    rw [add_warning_snd_warnings]
    exact dlookup_dinsert_ne _ _ _ _ (fresh_warning_id d k hk)
  have hwnew : dlookup (DatabaseManager.add_warning d u m v p c r t).2.warnings
      (DatabaseManager.get_next_warning_id d)
      = some (DatabaseManager.add_warning d u m v p c r t).1 := by
    rw [add_warning_snd_warnings]
    exact dlookup_dinsert_self _ _ _
  have hother : ∀ rec', (∀ wid, wid ∈ rec'.warnings →
      (dlookup d.warnings wid).isSome) →
      rec'.total_points = userIssuedSum d rec' →
      (∀ wid, wid ∈ rec'.warnings →
        (dlookup (DatabaseManager.add_warning d u m v p c r t).2.warnings wid).isSome)
      ∧ rec'.total_points
          = userIssuedSum (DatabaseManager.add_warning d u m v p c r t).2 rec' := by
    intro rec' hmem0 htot0
    constructor
    · intro wid hw
      rw [add_warning_snd_warnings]
      exact isSome_dlookup_dinsert _ _ _ _ (hmem0 wid hw)
    · rw [htot0]
      exact (userIssuedSum_eq d _ rec'
        (fun wid hw => by rw [hwmap wid (hmem0 wid hw)])).symm
  have hnewrec : ∀ rec0, (∀ wid, wid ∈ rec0.warnings →
      (dlookup d.warnings wid).isSome) →
      rec0.total_points = userIssuedSum d rec0 →
      (∀ wid, wid ∈ rec0.warnings ++ [DatabaseManager.get_next_warning_id d] →
        (dlookup (DatabaseManager.add_warning d u m v p c r t).2.warnings wid).isSome)
      ∧ rec0.total_points + p
          = userIssuedSum (DatabaseManager.add_warning d u m v p c r t).2
            { rec0 with
                warnings := rec0.warnings ++ [DatabaseManager.get_next_warning_id d],
                total_points := rec0.total_points + p } := by
    intro rec0 hmem0 htot0
    constructor
    · intro wid hw
      rcases List.mem_append.mp hw with hmem | hmem
      · rw [add_warning_snd_warnings]
        exact isSome_dlookup_dinsert _ _ _ _ (hmem0 wid hmem)
      · rw [List.mem_singleton] at hmem
        subst hmem
        rw [hwnew]
        rfl
    · unfold userIssuedSum
      rw [List.filterMap_append, List.sum_append]
      have h1 : (rec0.warnings.filterMap (fun wid =>
          (dlookup (DatabaseManager.add_warning d u m v p c r t).2.warnings wid).map
            Warning.points))
          = rec0.warnings.filterMap (fun wid =>
              (dlookup d.warnings wid).map Warning.points) := by
        apply filterMap_congr_mem
        intro a ha
        rw [hwmap a (hmem0 a ha)]
      have hsome : (dlookup (DatabaseManager.add_warning d u m v p c r t).2.warnings
          (DatabaseManager.get_next_warning_id d)).map Warning.points = some p := by
        rw [hwnew]
        rfl
      rw [h1]
      have hptsnew : ((DatabaseManager.add_warning d u m v p c r t).1).points = p := rfl
      simp only [List.filterMap_cons, List.filterMap_nil, hwnew, Option.map_some',
        hptsnew, List.sum_cons, List.sum_nil]
      have htot0' : rec0.total_points = (rec0.warnings.filterMap (fun wid =>
          (dlookup d.warnings wid).map Warning.points)).sum := htot0
      omega
  intro u' rec' h'
  cases hud : dlookup d.users u with
  | some rec0 =>
    rw [add_warning_users_present d u m v p c r t rec0 hud] at h'
    by_cases huu : u' = u
    · subst huu
      rw [dlookup_dmodify_self, hud] at h'
      simp only [Option.map_some'] at h'
      cases h'
      obtain ⟨hmem0, htot0⟩ := hinv u' rec0 hud
      exact hnewrec rec0 hmem0 htot0
    · rw [dlookup_dmodify_ne _ _ _ _ huu] at h'
      obtain ⟨hmem0, htot0⟩ := hinv u' rec' h'
      exact hother rec' hmem0 htot0
  | none =>
    rw [add_warning_users_absent d u m v p c r t hud] at h'
    by_cases huu : u' = u
    · subst huu
      rw [dlookup_dmodify_self, dlookup_dinsert_self] at h'
      simp only [Option.map_some'] at h'
      cases h'
      have h0 := hnewrec ⟨0, [], []⟩ (by intro wid hw; simp at hw) (by rfl)
      exact h0
    · rw [dlookup_dmodify_ne _ _ _ _ huu, dlookup_dinsert_ne _ _ _ _ huu] at h'
      obtain ⟨hmem0, htot0⟩ := hinv u' rec' h'
      exact hother rec' hmem0 htot0

theorem remove_warning_points_map (d : DbData) (wid : String) (m : Int)
    (reason : String) (t : Time) (k : String) :
    (dlookup (DatabaseManager.remove_warning d wid m reason t).2.warnings k).map
        Warning.points
      = (dlookup d.warnings k).map Warning.points := by
  cases hc : dcontains d.warnings wid with
  | false => rw [remove_warning_not_found d wid m reason t hc]
  | true =>
    rw [remove_warning_found d wid m reason t hc]
    show (dlookup (dmodify d.warnings wid
      (fun w => DatabaseManager.removalStamp w m reason t)) k).map Warning.points = _
    by_cases hk : k = wid
    · subst hk
      rw [dlookup_dmodify_self]
      cases dlookup d.warnings k <;> rfl
    · rw [dlookup_dmodify_ne _ _ _ _ hk]

theorem remove_user_warnings_points_map (d : DbData) (u m : Int) (reason : String)
    (t : Time) (k : String) :
    (dlookup (DatabaseManager.remove_user_warnings d u m reason t).2.warnings k).map
        Warning.points
      = (dlookup d.warnings k).map Warning.points := by
  cases hu : dlookup d.users u with
  | none => rw [remove_user_warnings_none_user d u m reason t hu]
  | some rec =>
    rw [remove_user_warnings_some_user d u m reason t rec hu]
    exact foldl_removeUserStep_points m reason t rec.warnings 0 d.warnings k

theorem usersInv_of_points_map (d d' : DbData) (husers : d'.users = d.users)
    (hpts : ∀ k, (dlookup d'.warnings k).map Warning.points
      = (dlookup d.warnings k).map Warning.points)
    (hinv : UsersInv d) : UsersInv d' := by
  intro u rec h
  rw [husers] at h
  obtain ⟨hm, ht⟩ := hinv u rec h
  constructor
  · intro wid hw
    exact isSome_of_map_points_eq (hpts wid) (hm wid hw)
  · rw [ht]
    exact (userIssuedSum_eq d d' rec (fun wid _ => hpts wid)).symm

theorem usersInv_reachable (d : DbData) (h : DbReachable d) : UsersInv d := by
  induction h with
  | refl => exact usersInv_empty
  | tail _hab hbc ih =>
    cases hbc with
    | add u m v p c r t => exact usersInv_add _ u m v p c r t ih
    | remove wid m reason t =>
      exact usersInv_of_points_map _ _ (remove_warning_users _ wid m reason t)
        (remove_warning_points_map _ wid m reason t) ih
    | removeUser u m reason t =>
      exact usersInv_of_points_map _ _ (remove_user_warnings_users _ u m reason t)
        (remove_user_warnings_points_map _ u m reason t) ih
    | addBan u tp a mid t =>
      exact usersInv_of_points_map _ _ (add_ban_request_state _ u tp a mid t).1
        (fun k => by rw [(add_ban_request_state _ u tp a mid t).2]) ih
    | completeBan mid modid t =>
      exact usersInv_of_points_map _ _ (complete_ban_request_state _ mid modid t).1
        (fun k => by rw [(complete_ban_request_state _ mid modid t).2]) ih

/-- C10: in every reachable store the stored `total_points` equals the sum
of points of all warnings ever issued to the user; `add_warning` increments
it by the new warning's points, while `remove_warning` and
`remove_user_warnings` leave the whole `users` table (hence every stored
total) untouched; consequently, once a positive-points warning of the user
is removed or expired, the derived active total is strictly below the
stored counter. -/
theorem total_points_never_decreases (d : DbData) (hr : DbReachable d) :
    (∀ u rec, dlookup d.users u = some rec →
        rec.total_points = userIssuedSum d rec)
    ∧ (∀ u m v p c r t rec, dlookup d.users u = some rec →
        dlookup (DatabaseManager.add_warning d u m v p c r t).2.users u
          = some { rec with
              warnings := rec.warnings ++ [DatabaseManager.get_next_warning_id d],
              total_points := rec.total_points + p })
    ∧ (∀ wid m reason t,
        (DatabaseManager.remove_warning d wid m reason t).2.users = d.users)
    ∧ (∀ u m reason t,
        (DatabaseManager.remove_user_warnings d u m reason t).2.users = d.users)
    ∧ (∀ u rec now, dlookup d.users u = some rec →
        (∀ wid w, wid ∈ rec.warnings → dlookup d.warnings wid = some w →
          0 ≤ w.points) →
        (∃ wid w, wid ∈ rec.warnings ∧ dlookup d.warnings wid = some w
          ∧ 0 < w.points ∧ (w.removed = true ∨ w.expires_at ≤ now)) →
        DatabaseManager.get_user_points d u now < rec.total_points) := by
  have hinv := usersInv_reachable d hr
  refine ⟨fun u rec h => (hinv u rec h).2, ?_, ?_, ?_, ?_⟩
  · intro u m v p c r t rec h
    rw [add_warning_users_present d u m v p c r t rec h, dlookup_dmodify_self, h]
    rfl
  · exact fun wid m reason t => remove_warning_users d wid m reason t
  · exact fun u m reason t => remove_user_warnings_users d u m reason t
  · intro u rec now h hnn hex
    obtain ⟨hmem, htot⟩ := hinv u rec h
    rw [get_user_points_eq_spec, specActivePoints_some d u now rec h, htot]
    have hsum : userIssuedSum d rec
        = ((rec.warnings.filterMap (dlookup d.warnings)).map Warning.points).sum := by
      unfold userIssuedSum
      rw [List.map_filterMap]
    rw [hsum]
    apply sum_points_filter_lt
    · intro w hw
      obtain ⟨wid, hwid, hlk⟩ := List.mem_filterMap.mp hw
      exact hnn wid w hwid hlk
    · obtain ⟨wid, w, hwid, hlk, hpos, hdead⟩ := hex
      refine ⟨w, List.mem_filterMap.mpr ⟨wid, hwid, hlk⟩, ?_, hpos⟩
      rcases hdead with hrem | hexp
      · simp [hrem]
      · have hno : ¬ now < w.expires_at := not_lt.mpr hexp
        simp [hno]

/-- The stamped warning stored under id "1" in `dC5b`. -/
def wC10 : Warning :=
  { id := "1", user_id := 7, moderator_id := 9, violation_type := "NLR",
    points := 10, clips := [], reason := "r", timestamp := 0,
    expires_at := 1 - day, removed := true, removed_by := some 9,
    removed_at := some 1, removal_reason := some "r" }

theorem dC5b_reachable : DbReachable dC5b :=
  Relation.ReflTransGen.tail
    (Relation.ReflTransGen.single (DbStep.add emptyDb 7 9 "NLR" 10 [] "r" 0))
    (DbStep.remove dC5a "1" 9 "r" 1)

/-- Witness for C10 on `dC5b`: the stored total is still 10 after the
removal, while the derived active total at time 2 is strictly below it. -/
theorem total_points_never_decreases_witness :
    (DatabaseManager.remove_warning dC5b "1" 9 "again" 3).2.users = dC5b.users
    ∧ DatabaseManager.get_user_points dC5b 7 2 < 10 := by
  have h := total_points_never_decreases dC5b dC5b_reachable
  refine ⟨h.2.2.1 "1" 9 "again" 3, ?_⟩
  have h5 := h.2.2.2.2 7 ⟨10, ["1"], []⟩ 2 (by rfl) ?hnn ?hex
  · exact h5
  case hnn =>
    intro wid w hmem hw
    rw [List.mem_singleton] at hmem
    subst hmem
    have hconc : dlookup dC5b.warnings "1" = some wC10 := by decide
    rw [hconc] at hw
    cases hw
    decide
  case hex =>
    refine ⟨"1", wC10, by decide, by decide, by decide, Or.inl (by decide)⟩
